import Mathlib

/-!
Verification of the GlossaryFlow translation/rewrite core against its
specification.  The Python sources under `src/` are shallowly embedded:
strings are Lean `String`s (sequences of Unicode code points, as in Python),
line processing is recursion over the list of lines obtained by splitting on
the newline character, and floating-point threshold comparisons such as
`len(cleaned) < original_length * 0.3` are embedded as exact rational
comparisons (for the constants 0.3, 0.4, 0.5 and the integer lengths that
occur, the IEEE-double comparison in CPython agrees with the exact rational
one, so the embedding is faithful).
-/

namespace GlossaryFlow

/-! ## Python string primitives -/

/-- Whitespace characters recognised by Python's `str.strip()` / `str.isspace()`
(restricted to the ASCII whitespace actually occurring in this code base). -/
def pyIsSpace (c : Char) : Bool :=
  c = ' ' || c = '\t' || c = '\n' || c = '\r' || c = '\x0b' || c = '\x0c'

/-- `str.strip()` on a character list: drop whitespace from both ends. -/
def stripEnds (l : List Char) : List Char :=
  ((l.dropWhile pyIsSpace).reverse.dropWhile pyIsSpace).reverse

/-- The right-hand half of `str.strip()` (`str.rstrip()`) on a character
list. -/
def rstripL (l : List Char) : List Char := (l.reverse.dropWhile pyIsSpace).reverse

/-- Python `str.strip()`. -/
def pyStrip (s : String) : String :=
  String.mk (stripEnds s.data)

/-- Python `str.lower()` (ASCII case folding; the identifiers and phrase
tables in this code base contain no non-ASCII cased letters). -/
def pyLower (s : String) : String :=
  String.mk (s.data.map Char.toLower)

/-- Split a character list at every newline, as Python `str.split('\n')`
does: the result is never empty, and splitting the empty string gives
one empty field. -/
def splitNl : List Char → List (List Char)
  | [] => [[]]
  | c :: cs =>
    match splitNl cs with
    | [] => [[]]
    | g :: gs => if c = '\n' then [] :: g :: gs else (c :: g) :: gs

/-- Python `text.split('\n')`. -/
def pySplitLines (s : String) : List String :=
  (splitNl s.data).map String.mk

/-- Python `sep.join(xs)`. -/
def pyJoin (sep : String) : List String → String
  | [] => ""
  | [x] => x
  | x :: y :: xs => x ++ sep ++ pyJoin sep (y :: xs)

/-- Is `pat` a (character) prefix of `hay`? -/
def isPrefL : List Char → List Char → Bool
  | [], _ => true
  | _ :: _, [] => false
  | a :: as, b :: bs => a = b && isPrefL as bs

/-- Is `pat` a contiguous infix of `hay`?  (Python's `pat in hay`.) -/
def infixOf (pat : List Char) : List Char → Bool
  | [] => isPrefL pat []
  | c :: t => isPrefL pat (c :: t) || infixOf pat t

/-- Python `pat in s` (substring containment). -/
def strContains (s pat : String) : Bool :=
  infixOf pat.data s.data

/-- Python `s.startswith(pat)`. -/
def startsWithStr (s pat : String) : Bool :=
  isPrefL pat.data s.data

/-- Python `s.endswith(pat)`. -/
def endsWithStr (s pat : String) : Bool :=
  isPrefL pat.data.reverse s.data.reverse

/-- Python `s.count(c)` for a single-character needle. -/
def countChar (s : String) (c : Char) : Nat :=
  (s.data.filter (fun x => x = c)).length

/-! ## `MarkdownTranslator._validate_translation` and helpers
(src/src/translator/markdown_translator.py) -/

/-- A CJK character in the block U+4E00–U+9FFF, the source-script test
`'一' <= char <= '鿿'` used throughout the translator. -/
def isChineseChar (c : Char) : Bool :=
  0x4e00 ≤ c.toNat && c.toNat ≤ 0x9fff

/-- `sum(1 for char in text if '一' <= char <= '鿿')`. -/
def chineseCharCount (s : String) : Nat :=
  (s.data.filter isChineseChar).length

/-- `MarkdownTranslator._validate_translation`: reject empty output, then
accept iff the Chinese-character ratio `chinese_char_count / len` is strictly
below 0.3.  The float comparison `count/len < 0.3` is embedded as the exact
integer comparison `10*count < 3*len`, with which it agrees for all string
lengths below 2^50. -/
def validateTranslation (translatedText : String) : Bool :=
  if translatedText = "" then false
  else
    let chineseCount := chineseCharCount translatedText
    decide (10 * chineseCount < 3 * translatedText.length)

/-! ## `MarkdownTranslator._remove_chinese_lines_from_bilingual` -/

/-- The per-line keep decision of `_remove_chinese_lines_from_bilingual`:
keep blank lines; otherwise drop the line iff the Chinese-character count of
the line exceeds 0.4 of the stripped line's length. -/
def bilingualLineKept (line : String) : Bool :=
  if pyStrip line = "" then true
  else
    let chineseChars := chineseCharCount line
    let totalChars := (pyStrip line).length
    if totalChars = 0 then true
    else !decide (2 * totalChars < 5 * chineseChars)

/-- The accumulation loop of `_remove_chinese_lines_from_bilingual`. -/
def bilingualFilterLoop : List String → List String
  | [] => []
  | l :: rest =>
    if bilingualLineKept l then l :: bilingualFilterLoop rest
    else bilingualFilterLoop rest

/-- `MarkdownTranslator._remove_chinese_lines_from_bilingual`. -/
def removeChineseLinesFromBilingual (text : String) : String :=
  if text = "" then text
  else pyJoin "\n" (bilingualFilterLoop (pySplitLines text))

/-! ## `MarkdownTranslator._detect_model_type` -/

def reasoningKeywords : List String :=
  ["reason", "r1", "deepseek-reasoner", "o1", "o3"]

def mtLikeKeywords : List String :=
  ["mimo", "nmt", "translate", "opus-mt"]

/-- `provider_name.lower() if provider_name else ""` (a `None` or empty
provider yields the empty string). -/
def providerLowerOf : Option String → String
  | some p => if p ≠ "" then pyLower p else ""
  | none => ""

/-- `MarkdownTranslator._detect_model_type`.  The provider name is optional
(`provider_name: str = None` in the source). -/
def detectModelType (modelName : String) (providerName : Option String) : String :=
  let modelLower := pyLower modelName
  let providerLower := providerLowerOf providerName
  if reasoningKeywords.any (fun kw => strContains modelLower kw) then "reasoning"
  else if mtLikeKeywords.any (fun kw => strContains providerLower kw) then "mt-like"
  else if !(strContains modelLower "qwen")
          && mtLikeKeywords.any (fun kw => strContains modelLower kw) then "mt-like"
  else "chat"

/-! ## Tag-span removal (shared by `_remove_thinking_tags` in
`output_contract.py` and `markdown_translator.py`, which are behaviourally
identical: `re.sub(r'<tag>.*?</tag>', '', text, flags=re.DOTALL|re.IGNORECASE)`
for the three tags, then dropping blank lines and stripping) -/

/-- Consume `lit` case-insensitively from the front of `cs`, returning the
remainder on success. -/
def matchLitCI : List Char → List Char → Option (List Char)
  | [], rest => some rest
  | _ :: _, [] => none
  | a :: as, b :: bs => if a.toLower = b.toLower then matchLitCI as bs else none

/-- Find the first case-insensitive occurrence of `pat` in `cs` and return
the remainder after it. -/
def findAfterCI (pat : List Char) : List Char → Option (List Char)
  | [] => matchLitCI pat []
  | c :: rest =>
    match matchLitCI pat (c :: rest) with
    | some rem => some rem
    | none => findAfterCI pat rest

/-- One `re.sub(r'<open>.*?</close>', '', ·)` pass: repeatedly delete the
span from each (case-insensitive) opening tag through the first matching
closing tag; an opening tag with no closing tag is left in place.  The
fuel argument only makes the recursion structural: every recursive call
strictly shortens the character list, so with `fuel = cs.length + 1` the
`0` case is never reached. -/
def removeTagSpansF (openTag closeTag : List Char) : Nat → List Char → List Char
  | 0, cs => cs
  | _ + 1, [] => []
  | fuel + 1, c :: rest =>
    match matchLitCI openTag (c :: rest) with
    | some afterOpen =>
      match findAfterCI closeTag afterOpen with
      | some afterClose => removeTagSpansF openTag closeTag fuel afterClose
      | none => c :: rest
    | none => c :: removeTagSpansF openTag closeTag fuel rest

def removeTagSpans (openTag closeTag : List Char) (cs : List Char) : List Char :=
  removeTagSpansF openTag closeTag (cs.length + 1) cs

/-- One tag's worth of `re.sub` in `_remove_thinking_tags`. -/
def removeTagBlocks (tag : String) (s : String) : String :=
  String.mk (removeTagSpans ("<" ++ tag ++ ">").data ("</" ++ tag ++ ">").data s.data)

/-- Drop lines that are blank after stripping, re-join, and strip — the
whitespace cleanup at the end of both `_remove_thinking_tags` versions. -/
def dropBlankLinesAndStrip (s : String) : String :=
  pyStrip (pyJoin "\n" ((pySplitLines s).filter (fun l => pyStrip l != "")))

/-- `_remove_thinking_tags` (both the `output_contract.py` and the
`markdown_translator.py` version; they perform the same transformation). -/
def removeThinkingTags (text : String) : String :=
  if text = "" then text
  else
    dropBlankLinesAndStrip
      (removeTagBlocks "reasoning" (removeTagBlocks "analysis" (removeTagBlocks "thinking" text)))

/-! ## `MarkdownTranslator` cleaning helpers -/

/-- Python `s[i]` as an optional lookup. -/
def pyCharAt (s : String) (i : Nat) : Option Char :=
  s.data.get? i

/-- Python `s[a:b]` for `0 ≤ a ≤ b`. -/
def pySlice (s : String) (a b : Nat) : String :=
  String.mk ((s.data.drop a).take (b - a))

/-- The repeated test `stripped and stripped[0].isdigit() and
(stripped[1] == '.' or stripped[1:3] == '. ')`.  In CPython `stripped[1]`
raises `IndexError` on a one-character digit line, crashing the caller; the
embedding totalises that case to `false`.  The crash is reachable in
`parse_model_output` through the eagerly evaluated `is_numbered_list` of the
echo scan (CPython raises on the input `"5"`), so the C9 fixpoint theorem
carries the `firstLineNotBareDigit` hypothesis excluding exactly those
inputs; the translator-side uses occur in claims whose hypotheses
presuppose completed runs. -/
def isNumberedStart (s : String) : Bool :=
  match s.data with
  | [] => false
  | c :: _ => c.isDigit && (pyCharAt s 1 = some '.' || pySlice s 1 3 = ". ")

def strongReasoningIndicators : List String :=
  ["<thinking>", "<analysis>", "<reasoning>", "i will translate",
   "i need to translate", "let me translate", "step 1:", "step 2:",
   "first, i will", "my approach is to", "translation strategy:",
   "here is my plan"]

/-- `MarkdownTranslator._detect_reasoning`. -/
def detectReasoning (text : String) : Bool :=
  if text = "" then false
  else
    let lowerText := pyLower text
    if strongReasoningIndicators.any (fun ind => strContains lowerText ind) then true
    else
      let lines := pySplitLines text
      let reasoningLineCount :=
        ((lines.take 10).filter (fun line => isNumberedStart (pyStrip line))).length
      decide (3 ≤ reasoningLineCount)

def reverseSearchReasoningPatterns : List String :=
  ["i will translate", "i need to", "let me", "first, i", "step ", "finally,",
   "in summary", "to summarize", "break down", "identify all", "translate each",
   "ensure that", "making sure", "checking that", "note:", "important:",
   "the document", "the user", "the text", "looking at",
   "here is what i will do", "my approach", "my strategy"]

/-- Largest index whose line is non-blank after stripping (the
`content_end_idx` computation of `_clean_by_reverse_search`). -/
def lastNonblankIdx (lines : List String) : Option Nat :=
  match lines.reverse.findIdx? (fun l => pyStrip l != "") with
  | some k => some (lines.length - 1 - k)
  | none => none

/-- One iteration of the backwards scan of `_clean_by_reverse_search` at
index `i`; `next` is the result of continuing the scan below `i`. -/
def reverseScanStep (lines : List String) (searchLimit i : Nat)
    (next : Option Nat) : Option Nat :=
  if i < searchLimit then none
  else
    let line := pyStrip (lines.getD i "")
    if line = "" then next
    else
      let lower := pyLower line
      let isReasoning := reverseSearchReasoningPatterns.any (fun pat => strContains lower pat)
      let isNumbered := isNumberedStart line && decide (5 * i < lines.length)
      let isShortBullet :=
        (startsWithStr line "- " || startsWithStr line "* ") && decide (line.length < 100)
      if isReasoning || isNumbered || isShortBullet then some (i + 1)
      else next

/-- The backwards scan of `_clean_by_reverse_search`: starting at
`content_end_idx` and walking down towards `search_limit`, find the last
reasoning-looking line; the result is `content_start_idx`. -/
def reverseScanLoop (lines : List String) (searchLimit : Nat) : Nat → Option Nat
  | 0 => reverseScanStep lines searchLimit 0 none
  | i + 1 => reverseScanStep lines searchLimit (i + 1) (reverseScanLoop lines searchLimit i)

/-- `MarkdownTranslator._clean_by_reverse_search`.  `int(len(lines)*0.3)`
is exactly `3*len/10` in integer arithmetic. -/
def cleanByReverseSearch (lines : List String) : String :=
  if lines = [] then ""
  else
    match lastNonblankIdx lines with
    | none => ""
    | some contentEnd =>
      let searchLimit := 3 * lines.length / 10
      match reverseScanLoop lines searchLimit contentEnd with
      | none => ""
      | some contentStart =>
        if contentStart ≤ contentEnd then
          let result :=
            pyStrip (pyJoin "\n" ((lines.drop contentStart).take (contentEnd + 1 - contentStart)))
          if decide (50 < result.length) then result else ""
        else ""

def separatorMarkers : List String := ["---", "===", "***", "___"]

def reasoningEndPatterns : List String :=
  ["let\x27s write the translation", "let\x27s translate", "here\x27s the translation",
   "translation:", "we will translate", "let\x27s break down", "we are to output"]

def introIndicators : List String :=
  ["here is", "below is", "following is", "translated", "translation:",
   "document:", "markdown document", "english translation", "chinese translation",
   "这是", "以下是", "翻译", "the document has", "steps:", "let\x27s", "we will",
   "we are to", "let\x27s break down", "note:", "original chinese text:",
   "we will translate", "paragraph by paragraph", "we note that", "we also note"]

/-- `MarkdownTranslator._is_intro_line`. -/
def isIntroLine (line : String) (patterns : Option (List String)) : Bool :=
  if line = "" then false
  else
    let lower := pyLower line
    let patternHit :=
      match patterns with
      | some pats => pats.any (fun pat => strContains lower pat)
      | none => false
    if patternHit then true
    else
      let indicatorCount :=
        (introIndicators.filter (fun ind => strContains lower ind)).length
      if 2 ≤ indicatorCount then true
      else if line.length < 100 ∧ 1 ≤ indicatorCount then true
      else
        let stripped := pyStrip line
        if isNumberedStart stripped then true
        else if (startsWithStr stripped "- " || startsWithStr stripped "* ")
            && decide (stripped.length < 100) then true
        else false

/-- `MarkdownTranslator._clean_by_separator`. -/
def cleanBySeparator (rawOutput : String) : String :=
  let lines := pySplitLines rawOutput
  let phase3 :=
    match (List.range (lines.length - 2)).find? (fun i =>
        pyStrip (lines.getD i "") = "" && pyStrip (lines.getD (i+1) "") = ""
          && pyStrip (lines.getD (i+2) "") != ""
          && !(isIntroLine (pyStrip (lines.getD (i+2) "")) none)) with
    | some i =>
      let result := pyStrip (pyJoin "\n" (lines.drop (i + 2)))
      if result != "" && decide (10 < result.length) then result else ""
    | none => ""
  let phase2 :=
    match lines.findIdx? (fun l =>
        reasoningEndPatterns.any (fun pat => strContains (pyLower (pyStrip l)) pat)) with
    | some i =>
      let uppr := min (i + 5) lines.length
      match (List.range' (i + 1) (uppr - (i + 1))).find? (fun j =>
          pyStrip (lines.getD j "") != "" && decide (20 < (pyStrip (lines.getD j "")).length)) with
      | some j =>
        let result := pyStrip (pyJoin "\n" (lines.drop j))
        if result != "" && decide (10 < result.length) then result else phase3
      | none => phase3
    | none => phase3
  match lines.findIdx? (fun l => separatorMarkers.contains (pyStrip l)) with
  | some i =>
    if i + 1 < lines.length then
      let result := pyStrip (pyJoin "\n" (lines.drop (i + 1)))
      if result != "" && decide (10 < result.length) then result else phase2
    else phase2
  | none => phase2

def promptPatterns : List String :=
  ["you are a professional translator", "translate all chinese",
   "important requirements", "preserve all markdown", "do not translate:",
   "headings and paragraphs", "table content and", "list items",
   "image alt text", "code inside code blocks", "inline code content",
   "urls", "file paths", "- headings", "- table", "- list", "- code",
   "- preserve", "这是您提供的", "以下是", "好的，这是", "markdown 文档",
   "英文翻译", "中文翻译"]

/-- `MarkdownTranslator._clean_by_patterns`. -/
def cleanByPatterns (rawOutput : String) : String :=
  let lines := pySplitLines rawOutput
  let contentStartIdx :=
    match lines.findIdx? (fun line =>
        pyStrip line != "" && !(isIntroLine (pyStrip line) (some promptPatterns))
          && (startsWithStr (pyStrip line) "#" || decide (10 < (pyStrip line).length))) with
    | some i => i
    | none => 0
  let result := pyStrip (pyJoin "\n" (lines.drop contentStartIdx))
  if result = "" || decide (result.length < 10) then rawOutput else result

def finalCleanupKeywords : List String :=
  ["variable names", "brand names in english", "preserve all",
   "do not translate:", "output only", "markdown formatting",
   "terminology constraints:", "you must use the following",
   "when the chinese term appears", "specified english translation",
   "do not paraphrase", "do not abbreviate", "do not substitute",
   "if a term in the glossary", "ignore it", "if a chinese term",
   "prefer the glossary translation", "这是您提供的", "以下是", "好的，这是",
   "markdown 文档", "英文翻译", "中文翻译"]

def glossaryBrands : List String :=
  ["certificate center", "byteplus", "digi cert", "geo trust",
   "global sign", "alpha ssl", "wotrus"]

/-- The per-line keep decision of `MarkdownTranslator._final_cleanup`. -/
def finalCleanupLineKept (line : String) : Bool :=
  let stripped := pyStrip line
  if stripped != ""
      && finalCleanupKeywords.any (fun kw => strContains (pyLower stripped) kw)
      && !(startsWithStr stripped "#")
      && !(startsWithStr stripped "```")
      && !(startsWithStr stripped "|" && endsWithStr stripped "|") then false
  else if pyLower stripped = "glossary:" then false
  else if startsWithStr stripped "-"
      && glossaryBrands.any (fun b => strContains (pyLower stripped) b) then false
  else true

/-- `while result.startswith('\n'): result = result[1:]`. -/
def dropLeadingNewlines (s : String) : String :=
  String.mk (s.data.dropWhile (fun c => c = '\n'))

/-- `MarkdownTranslator._final_cleanup`. -/
def finalCleanup (text : String) : String :=
  dropLeadingNewlines (pyStrip (pyJoin "\n" ((pySplitLines text).filter finalCleanupLineKept)))

/-- `MarkdownTranslator._clean_model_output`.  The 0.5-threshold comparison
`len(result) < original_length * 0.5` is exactly `2*len < original`. -/
def cleanModelOutput (modelType : String) (rawOutput : String) : String :=
  if rawOutput = "" || decide ((pyStrip rawOutput).length < 10) then rawOutput
  else if modelType = "mt-like" then
    finalCleanup (removeChineseLinesFromBilingual rawOutput)
  else
    let originalLength := rawOutput.length
    let cleanedOutput := removeThinkingTags rawOutput
    let hadThinkingTags := cleanedOutput != rawOutput
    let rawOutput2 := if hadThinkingTags then cleanedOutput else rawOutput
    let hasReasoning := detectReasoning rawOutput2
    if !hadThinkingTags && !hasReasoning then
      let result := finalCleanup (cleanByPatterns rawOutput2)
      if 2 * result.length < originalLength then finalCleanup rawOutput2 else result
    else
      let lines := pySplitLines rawOutput2
      let separatorResult := cleanBySeparator rawOutput2
      let result :=
        if separatorResult != "" && decide (10 < separatorResult.length) then separatorResult
        else
          let reverseResult := cleanByReverseSearch lines
          if reverseResult != "" && decide (10 < reverseResult.length) then reverseResult
          else cleanByPatterns rawOutput2
      finalCleanup result

/-! ## `MarkdownTranslator.translate` / `_translate_once`

The external provider call is abstracted as an attempt-indexed oracle
`gen : Nat → Except String String` (the prompt sent on attempt `n` is a
function of `n` alone, so this loses no generality); a raised exception is
an `Except.error`. -/

/-- `MarkdownTranslator._translate_once`: on a provider exception the
original text is returned; otherwise the cleaned output, falling back to
the raw output when cleaning strips everything. -/
def translateOnce (gen : Nat → Except String String) (modelType : String)
    (markdownText : String) (attempt : Nat) : String :=
  match gen attempt with
  | .error _ => markdownText
  | .ok rawResult =>
    let cleanedResult := cleanModelOutput modelType rawResult
    if pyStrip cleanedResult = "" then rawResult else cleanedResult

/-- The per-profile retry budget of `MarkdownTranslator.translate`. -/
def maxRetriesFor (modelType : String) : Nat :=
  if modelType = "chat" then 2
  else if modelType = "reasoning" then 1
  else 1

/-- The `for attempt in range(max_retries)` loop of
`MarkdownTranslator.translate`, instrumented with the number of generation
attempts performed.  `fuel` is the number of remaining loop iterations
(`maxRetries - attempt`); the `0` case is the loop running to exhaustion
(`return markdown_text  # Fallback`). -/
def translateLoop (gen : Nat → Except String String) (modelType : String)
    (markdownText : String) (maxRetries : Nat) : Nat → Nat → String × Nat
  | 0, attempt => (markdownText, attempt)
  | fuel + 1, attempt =>
    let result := translateOnce gen modelType markdownText attempt
    if modelType = "mt-like" then (result, attempt + 1)
    else if validateTranslation result then (result, attempt + 1)
    else if attempt < maxRetries - 1 then
      translateLoop gen modelType markdownText maxRetries fuel (attempt + 1)
    else (markdownText, attempt + 1)

/-- `MarkdownTranslator.translate`, returning the final text and the number
of generation attempts. -/
def translateRun (gen : Nat → Except String String) (modelType : String)
    (markdownText : String) : String × Nat :=
  translateLoop gen modelType markdownText (maxRetriesFor modelType)
    (maxRetriesFor modelType) 0

/-! ## `TranslationOrientedRewriteStrategy._parse_translation_units`
(src/src/agents/rewrite/strategies/translation_oriented.py) — the segmenter -/

/-- After the leading digit of `re.match(r'^\d+\.', s)`: consume further
digits, then require a dot. -/
def digitsThenDot : List Char → Bool
  | [] => false
  | c :: rest => if c.isDigit then digitsThenDot rest else decide (c = '.')

/-- `re.match(r'^\d+\.', s)`: one or more digits followed by a dot. -/
def matchesNumDot (s : String) : Bool :=
  match s.data with
  | [] => false
  | c :: rest => c.isDigit && digitsThenDot rest

/-- `line_stripped.startswith('```')`. -/
def isFenceLine (line : String) : Bool :=
  startsWithStr (pyStrip line) "```"

/-- `line_stripped.startswith('#')`. -/
def isHeaderLine (line : String) : Bool :=
  startsWithStr (pyStrip line) "#"

/-- `line_stripped.startswith(('-', '*', '+')) or re.match(r'^\d+\.', line_stripped)`. -/
def isListStartLine (line : String) : Bool :=
  let s := pyStrip line
  startsWithStr s "-" || startsWithStr s "*" || startsWithStr s "+" || matchesNumDot s

/-- The list-continuation test of the inner collection loop; the final
alternative `next_line_stripped.startswith('  ')` tests the *stripped* line
and thus never fires — embedded exactly as written. -/
def isListContinuationLine (line : String) : Bool :=
  let s := pyStrip line
  startsWithStr s "-" || startsWithStr s "*" || startsWithStr s "+" || matchesNumDot s
    || startsWithStr s "  "

/-- `line_stripped.startswith('>')`. -/
def isBlockquoteLine (line : String) : Bool :=
  startsWithStr (pyStrip line) ">"

/-- `'|' in line and line.count('|') >= 2` (on the unstripped line). -/
def isTableLine (line : String) : Bool :=
  strContains line "|" && decide (2 ≤ countChar line '|')

/-- `not line_stripped`. -/
def isBlankLine (line : String) : Bool :=
  pyStrip line = ""

/-- The paragraph-terminating test of the paragraph collection loop. -/
def isParagraphBreakLine (line : String) : Bool :=
  let s := pyStrip line
  startsWithStr s "#" || startsWithStr s "```"
    || startsWithStr s "-" || startsWithStr s "*" || startsWithStr s "+"
    || startsWithStr s ">"
    || matchesNumDot s
    || (s != "" && strContains line "|" && decide (2 ≤ countChar line '|'))
    || s = ""

/-- The code-block body loop: append lines until (and including) a closing
fence, or until end of document. -/
def takeCodeBody : List String → List String × List String
  | [] => ([], [])
  | l :: rest =>
    if isFenceLine l then ([l], rest)
    else
      let p := takeCodeBody rest
      (l :: p.1, p.2)

/-- The consecutive-list-items loop. -/
def takeListItems : List String → List String × List String
  | [] => ([], [])
  | l :: rest =>
    if isListContinuationLine l then
      let p := takeListItems rest
      (l :: p.1, p.2)
    else ([], l :: rest)

/-- The paragraph collection loop. -/
def takeParagraph : List String → List String × List String
  | [] => ([], [])
  | l :: rest =>
    if isParagraphBreakLine l then ([], l :: rest)
    else
      let p := takeParagraph rest
      (l :: p.1, p.2)

/-- The main `while i < n` scan of `_parse_translation_units`, branch for
branch.  `fuel` only makes the recursion structural: every iteration
consumes at least one line, so `fuel = lines.length` never runs out. -/
def parseUnitsF : Nat → List String → List String
  | 0, _ => []
  | _ + 1, [] => []
  | fuel + 1, l :: rest =>
    if isFenceLine l then
      let p := takeCodeBody rest
      pyJoin "\n" (l :: p.1) :: parseUnitsF fuel p.2
    else if isHeaderLine l then l :: parseUnitsF fuel rest
    else if isListStartLine l then
      let p := takeListItems rest
      pyJoin "\n" (l :: p.1) :: parseUnitsF fuel p.2
    else if isBlockquoteLine l then l :: parseUnitsF fuel rest
    else if isTableLine l then l :: parseUnitsF fuel rest
    else if isBlankLine l then l :: parseUnitsF fuel rest
    else
      let p := takeParagraph rest
      pyJoin "\n" (l :: p.1) :: parseUnitsF fuel p.2

/-- `TranslationOrientedRewriteStrategy._parse_translation_units`. -/
def parseTranslationUnits (text : String) : List String :=
  parseUnitsF (pySplitLines text).length (pySplitLines text)

/-! ## `TranslationOutputContract` (src/src/core/output_contract.py) -/

/-- Consume `lit` case-sensitively from the front of `cs`. -/
def matchLit : List Char → List Char → Option (List Char)
  | [], rest => some rest
  | _ :: _, [] => none
  | a :: as, b :: bs => if a = b then matchLit as bs else none

/-- `\s*\n` with a greedy, backtracking `\s*`: succeeds iff the maximal
whitespace prefix of `cs` contains a newline, and the match extends through
the last newline of that prefix. -/
def matchWsNewline (cs : List Char) : Option (List Char) :=
  let run := cs.takeWhile pyIsSpace
  if run.contains '\n' then
    some (cs.drop (run.length - (run.reverse.takeWhile (fun c => !(c = '\n'))).length))
  else none

/-- An optional case-insensitive literal, `(lit)?`.  In every pattern below
the following mandatory literal starts with a character distinct from
`lit`'s first character, so taking the option greedily loses no matches. -/
def matchOptCI (lit : List Char) (cs : List Char) : List Char :=
  match matchLitCI lit cs with
  | some rem => rem
  | none => cs

/-- `.*?lit\s*\n` (non-greedy, `.` not matching a newline): scan forward for
`lit`; on a `\s*\n` tail failure the scan resumes at the next occurrence,
never crossing a newline. -/
def matchUpToThenWsNl (lit : List Char) : List Char → Option (List Char)
  | [] => none
  | c :: rest =>
    match matchLitCI lit (c :: rest) with
    | some rem =>
      match matchWsNewline rem with
      | some r => some r
      | none => if c = '\n' then none else matchUpToThenWsNl lit rest
    | none => if c = '\n' then none else matchUpToThenWsNl lit rest

/-- `^here is the (translated )?(markdown )?document:?\s*\n`. -/
def matchPrefPat1 (cs : List Char) : Option (List Char) :=
  match matchLitCI "here is the ".data cs with
  | none => none
  | some r1 =>
    let r2 := matchOptCI "translated ".data r1
    let r3 := matchOptCI "markdown ".data r2
    match matchLitCI "document".data r3 with
    | none => none
    | some r4 => matchWsNewline (matchOptCI ":".data r4)

/-- `^here is the translation:?\s*\n`. -/
def matchPrefPat2 (cs : List Char) : Option (List Char) :=
  match matchLitCI "here is the translation".data cs with
  | none => none
  | some r => matchWsNewline (matchOptCI ":".data r)

/-- `^translation:?\s*\n`. -/
def matchPrefPat3 (cs : List Char) : Option (List Char) :=
  match matchLitCI "translation".data cs with
  | none => none
  | some r => matchWsNewline (matchOptCI ":".data r)

/-- `^translated content:?\s*\n`. -/
def matchPrefPat4 (cs : List Char) : Option (List Char) :=
  match matchLitCI "translated content".data cs with
  | none => none
  | some r => matchWsNewline (matchOptCI ":".data r)

/-- `^好的，这是.*?翻译：\s*\n`. -/
def matchPrefPat5 (cs : List Char) : Option (List Char) :=
  match matchLitCI "好的，这是".data cs with
  | none => none
  | some r => matchUpToThenWsNl "翻译：".data r

/-- `^这是您提供的.*?翻译：\s*\n`. -/
def matchPrefPat6 (cs : List Char) : Option (List Char) :=
  match matchLitCI "这是您提供的".data cs with
  | none => none
  | some r => matchUpToThenWsNl "翻译：".data r

/-- `^以下是翻译后的?内容：\s*\n`. -/
def matchPrefPat7 (cs : List Char) : Option (List Char) :=
  match matchLitCI "以下是翻译后".data cs with
  | none => none
  | some r =>
    match matchLitCI "内容：".data (matchOptCI "的".data r) with
    | none => none
    | some r2 => matchWsNewline r2

/-- `TranslationOutputContract._remove_prefix_patterns`: try the seven
`PREFIX_CLEANUP_PATTERNS` in order against the start of the text and drop
the first match. -/
def removePrefixPatterns (text : String) : String :=
  let cs := text.data
  match matchPrefPat1 cs with
  | some rem => String.mk rem
  | none =>
  match matchPrefPat2 cs with
  | some rem => String.mk rem
  | none =>
  match matchPrefPat3 cs with
  | some rem => String.mk rem
  | none =>
  match matchPrefPat4 cs with
  | some rem => String.mk rem
  | none =>
  match matchPrefPat5 cs with
  | some rem => String.mk rem
  | none =>
  match matchPrefPat6 cs with
  | some rem => String.mk rem
  | none =>
  match matchPrefPat7 cs with
  | some rem => String.mk rem
  | none => text

/-- `re.sub(r'^\s*<answer>\s*\n*', '', text, flags=re.MULTILINE)` — at a
line start, a whitespace run (possibly spanning lines) followed by the tag
and a trailing whitespace run is deleted; case-sensitive unless `ci`. -/
def tryAnchoredTag (tag : List Char) (ci : Bool) (cs : List Char) :
    Option (List Char × Bool) :=
  let run := cs.takeWhile pyIsSpace
  let afterRun := cs.drop run.length
  match (if ci then matchLitCI tag afterRun else matchLit tag afterRun) with
  | none => none
  | some afterLit =>
    let trail := afterLit.takeWhile pyIsSpace
    let rem := afterLit.drop trail.length
    some (rem, trail.getLastD ' ' = '\n')

/-- The scan for an anchored-tag substitution; `atStart` tracks whether the
current position is a line start, `fuel = cs.length + 1` (each step consumes
at least one character). -/
def subAnchoredTagF (tag : List Char) (ci : Bool) : Nat → Bool → List Char → List Char
  | 0, _, cs => cs
  | _ + 1, _, [] => []
  | fuel + 1, atStart, c :: rest =>
    if atStart then
      match tryAnchoredTag tag ci (c :: rest) with
      | some (rem, remAtStart) => subAnchoredTagF tag ci fuel remAtStart rem
      | none => c :: subAnchoredTagF tag ci fuel (c = '\n') rest
    else c :: subAnchoredTagF tag ci fuel (c = '\n') rest

def subAnchoredTag (tag : String) (ci : Bool) (text : String) : String :=
  String.mk (subAnchoredTagF tag.data ci (text.data.length + 1) true text.data)

/-- `\s*</answer>\s*$` at one position: whitespace run, the closing tag,
then whitespace up to an end-of-line (or end of string). -/
def tryClosingTag (tag : List Char) (cs : List Char) : Option (List Char) :=
  let run := cs.takeWhile pyIsSpace
  let afterRun := cs.drop run.length
  match matchLit tag afterRun with
  | none => none
  | some afterLit =>
    let trail := afterLit.takeWhile pyIsSpace
    let after2 := afterLit.drop trail.length
    if after2 = [] then some []
    else if trail.contains '\n' then
      some (trail.drop (trail.length - 1 - (trail.reverse.takeWhile (fun c => !(c = '\n'))).length)
            ++ after2)
    else none

/-- `re.sub(r'\s*</answer>\s*$', '', text, flags=re.MULTILINE)`. -/
def subClosingTagF (tag : List Char) : Nat → List Char → List Char
  | 0, cs => cs
  | _ + 1, [] => []
  | fuel + 1, c :: rest =>
    match tryClosingTag tag (c :: rest) with
    | some rem => subClosingTagF tag fuel rem
    | none => c :: subClosingTagF tag fuel rest

def subClosingTag (tag : String) (text : String) : String :=
  String.mk (subClosingTagF tag.data (text.data.length + 1) text.data)

/-- `TranslationOutputContract._remove_answer_tags`: the three hunyuan-tag
substitutions followed by the blank-line cleanup. -/
def removeAnswerTags (text : String) : String :=
  let t1 := subAnchoredTag "<answer>" false text
  let t2 := subClosingTag "</answer>" t1
  let t3 := subAnchoredTag "assistant>" true t2
  dropBlankLinesAndStrip t3

def forcedRemovalTriggers : List String :=
  ["critical output requirements", "important requirements",
   "translation task start", "translation task end", "glossary:",
   "terminology:", "术语表", "use these translations for specific terms"]

def directiveStarts : List String :=
  ["you must", "you must not", "you should", "do not", "remember",
   "note that", "translate the following", "you are a professional translator"]

/-- `stripped.startswith('- ') and ': ' in stripped` with
`len(stripped[2:].strip()) < 100`: a glossary-entry-like line. -/
def isGlossaryEntryLine (stripped : String) : Bool :=
  startsWithStr stripped "- " && strContains stripped ": "
    && decide ((pyStrip (pySlice stripped 2 stripped.length)).length < 100)

/-- The line loop of `TranslationOutputContract._apply_forced_removal`,
carrying the `skip_until_next_header` flag and `skip_count`. -/
def forcedRemovalLoop : List String → Bool → Nat → List String
  | [], _, _ => []
  | line :: rest, skip, skipCount =>
    let stripped := pyStrip line
    if stripped = "" then
      if !skip then line :: forcedRemovalLoop rest skip skipCount
      else forcedRemovalLoop rest skip skipCount
    else
      let lineLower := pyLower stripped
      if forcedRemovalTriggers.any (fun p => strContains lineLower p) then
        forcedRemovalLoop rest true 0
      else if skip then
        let skipCount1 := skipCount + 1
        if startsWithStr stripped "#" then
          line :: forcedRemovalLoop rest false skipCount1
        else if 20 < skipCount1 then
          line :: forcedRemovalLoop rest false skipCount1
        else
          forcedRemovalLoop rest true skipCount1
      else if directiveStarts.any (fun p => startsWithStr lineLower p) then
        forcedRemovalLoop rest skip skipCount
      else if isGlossaryEntryLine stripped then
        forcedRemovalLoop rest skip skipCount
      else
        line :: forcedRemovalLoop rest skip skipCount

/-- The blank-run collapse of `TranslationOutputContract._clean_whitespace`. -/
def collapseBlankRuns : List String → Bool → List String
  | [], _ => []
  | line :: rest, prevEmpty =>
    let isEmpty := pyStrip line = ""
    if isEmpty && prevEmpty then collapseBlankRuns rest prevEmpty
    else line :: collapseBlankRuns rest isEmpty

/-- `TranslationOutputContract._clean_whitespace`. -/
def cleanWhitespace (text : String) : String :=
  pyStrip (pyJoin "\n" (collapseBlankRuns (pySplitLines text) false))

/-- `TranslationOutputContract._apply_forced_removal`. -/
def applyForcedRemoval (text : String) : String :=
  if text = "" then text
  else cleanWhitespace (pyJoin "\n" (forcedRemovalLoop (pySplitLines text) false 0))

def nonContentPatterns : List String :=
  ["you are a professional translator", "translate all chinese text",
   "important requirements:", "preserve all markdown formatting",
   "terminology constraints:", "do not translate:", "variable names",
   "brand names in english", "i will translate", "let me translate",
   "step 1:", "step 2:", "translation strategy:", "here is my plan",
   "这是您提供的", "以下是翻译后的内容", "好的，这是", "markdown 文档"]

/-- The inner `for j in range(i + 1, min(i + 3, len(lines)))` lookahead in the
blank-line branch of `_remove_instruction_echo_at_start`.  The loop breaks —
assigning `content_start_idx = i + 1` — only at a non-empty line that starts
with `#` or is longer than 80 characters; a non-empty line failing that test
does not stop the loop, so the second lookahead line is also examined.  The
assigned value `i + 1` does not depend on `j`, so the loop amounts to this
existential test over the (at most two) lookahead indices. -/
def echoLookahead (lines : List String) (i : Nat) : Bool :=
  (List.range' (i + 1) (min (i + 3) lines.length - (i + 1))).any
    (fun j =>
      let nextLine := pyStrip (lines.getD j "")
      nextLine != "" && (startsWithStr nextLine "#" || decide (80 < nextLine.length)))

/-- The scan of `_remove_instruction_echo_at_start`; `fuel` is the number of
remaining iterations of `for i in range(scan_limit)`; the state is
`(i, consecutive_instruction_lines, content_start_idx)`.  Both sides of the
`if not line` test end the scan via `break` except the `continue` branches.
Note: the source evaluates `is_numbered_list` eagerly on every non-blank,
non-instruction scanned line, and `line[1]` raises `IndexError` in CPython
when that line's stripped form is a single digit character; the embedding
totalises this through `isNumberedStart` (see its doc comment), so a theorem
asserting a returned value for a full run must exclude such inputs. -/
def echoScanF (lines : List String) : Nat → Nat → Nat → Nat → Nat
  | 0, _, _, contentStart => contentStart
  | fuel + 1, i, consecutive, contentStart =>
    let line := pyStrip (lines.getD i "")
    if line = "" then
      if 0 < consecutive then
        if echoLookahead lines i then i + 1 else contentStart
      else echoScanF lines fuel (i + 1) consecutive contentStart
    else
      if nonContentPatterns.any (fun p => strContains (pyLower line) p) then
        echoScanF lines fuel (i + 1) (consecutive + 1) (i + 1)
      else
        let looksLikeContent := startsWithStr line "#" || decide (30 < line.length)
          || ((["```", "**", "*", "[", "]"].any (fun m => strContains line m))
              && decide (20 < line.length))
        if looksLikeContent && !(isNumberedStart line) then contentStart
        else if 2 ≤ consecutive then echoScanF lines fuel (i + 1) consecutive (i + 1)
        else contentStart

/-- `TranslationOutputContract._remove_instruction_echo_at_start`. -/
def removeInstructionEchoAtStart (text : String) : String × Bool :=
  let lines := pySplitLines text
  let scanLimit := min 50 lines.length
  let contentStartIdx := echoScanF lines scanLimit 0 0 0
  if 0 < contentStartIdx then
    let result := pyStrip (pyJoin "\n" (lines.drop contentStartIdx))
    if decide (20 < result.length) && decide (contentStartIdx < 20) then (result, true)
    else (text, false)
  else (text, false)

def contentStartMarkers : List String :=
  ["translation:", "translated content:", "here is the translation:",
   "below is the translation:", "翻译如下：", "翻译结果：", "以下是翻译："]

/-- `while result_start < len(lines) and not lines[result_start].strip():
result_start += 1`, fuelled by `lines.length`. -/
def skipBlanksF (lines : List String) : Nat → Nat → Nat
  | 0, idx => idx
  | fuel + 1, idx =>
    if idx < lines.length ∧ pyStrip (lines.getD idx "") = "" then
      skipBlanksF lines fuel (idx + 1)
    else idx

/-- The inner marker loop of `_extract_from_start_marker` at line `i`. -/
def markerInner (lines : List String) (i : Nat) : List String → Option (String × String)
  | [] => none
  | m :: ms =>
    if startsWithStr (pyLower (pyStrip (lines.getD i ""))) (pyLower m) then
      let resultStart := skipBlanksF lines lines.length (i + 1)
      if resultStart < lines.length then
        let result := pyStrip (pyJoin "\n" (lines.drop resultStart))
        if decide (20 < result.length) then some (result, m)
        else markerInner lines i ms
      else markerInner lines i ms
    else markerInner lines i ms

/-- The outer line loop of `_extract_from_start_marker`. -/
def markerOuter (lines : List String) : Nat → List String → Option (String × String)
  | _, [] => none
  | i, _ :: rest =>
    match markerInner lines i contentStartMarkers with
    | some r => some r
    | none => markerOuter lines (i + 1) rest

/-- `TranslationOutputContract._extract_from_start_marker`. -/
def extractFromStartMarker (text : String) : String × Option String :=
  let lines := pySplitLines text
  match markerOuter lines 0 lines with
  | some (result, marker) => (result, some marker)
  | none => (text, none)

def ocArtifactKeywords : List String :=
  ["variable names", "brand names in english", "preserve all",
   "do not translate:", "output only", "terminology constraints:",
   "you must use the following", "when the chinese term appears",
   "specified english translation", "do not paraphrase",
   "if a term in the glossary"]

/-- The per-line keep decision of
`TranslationOutputContract._remove_prompt_artifacts`. -/
def ocArtifactLineKept (line : String) : Bool :=
  let stripped := pyStrip line
  if stripped = "" then true
  else if ocArtifactKeywords.any (fun kw => strContains (pyLower stripped) kw)
      && !(startsWithStr stripped "#" || startsWithStr stripped "```"
           || (startsWithStr stripped "|" && endsWithStr stripped "|")) then false
  else true

/-- `TranslationOutputContract._remove_prompt_artifacts`. -/
def removePromptArtifactsOC (text : String) : String :=
  pyStrip (pyJoin "\n" ((pySplitLines text).filter ocArtifactLineKept))

/-- `SKIP_PATTERNS`, searched case-insensitively (`re.search` with
`re.IGNORECASE`; `'==='` is subsumed by `'='`). -/
def skipPatternsOC : List String :=
  ["important", "critical", "requirements", "translation task", "glossary:",
   "terminology:", "you are", "translate the", "=", "==="]

def skipPatternHit (stripped : String) : Bool :=
  skipPatternsOC.any (fun p => strContains (pyLower stripped) p)

/-- `^\d+\. `: one or more digits, a dot, then a space. -/
def dotSpaceAfterDigits : List Char → Bool
  | [] => false
  | c :: rest =>
    if c.isDigit then dotSpaceAfterDigits rest
    else c = '.' && (match rest with | x :: _ => x = ' ' | [] => false)

def matchesNumDotSpace (s : String) : Bool :=
  match s.data with
  | [] => false
  | c :: rest => c.isDigit && dotSpaceAfterDigits rest

/-- `VALID_CONTENT_START_PATTERNS` as a prefix test. -/
def validContentStart (stripped : String) : Bool :=
  startsWithStr stripped "# " || startsWithStr stripped "## "
    || startsWithStr stripped "### " || startsWithStr stripped "* "
    || startsWithStr stripped "- " || matchesNumDotSpace stripped
    || startsWithStr stripped "```"

/-- `TranslationOutputContract._enforce_content_start`.  Inside the scan
`content_start_idx` is still `-1` at every test, so
`is_first_content = (i == 0) or (content_start_idx == -1 and i < 3)`
reduces to `i < 3`. -/
def enforceContentStart (text : String) : String × Bool :=
  if text = "" then (text, false)
  else
    let lines := pySplitLines text
    match (List.range (min 50 lines.length)).find? (fun i =>
        let stripped := pyStrip (lines.getD i "")
        stripped != ""
          && !(skipPatternHit stripped)
          && (validContentStart stripped || decide (40 < stripped.length)
              || decide (i = 0) || decide (i < 3))) with
    | some i => (pyStrip (pyJoin "\n" (lines.drop i)), true)
    | none => (text, false)

/-- `TranslationOutputContract._minimal_cleanup`: thinking-tag removal, then
known-prefix stripping, then strip. -/
def minimalCleanup (text : String) : String :=
  pyStrip (removePrefixPatterns (removeThinkingTags text))

/-- The metadata dictionary of `parse_model_output`.  (In the source the
initialisation writes the key `"forced_removal Applied"` — with a space —
while the pipeline sets and reads `"forced_removal_applied"`, so the flag
behaves as a plain boolean initially false, embedded as such.) -/
structure SanitizeMetadata where
  status : String
  originalLength : Nat
  cleanedLength : Nat
  removedPref : Option String
  removedSuffix : Option String
  hasChinese : Bool
  validationErrors : List String
  forcedRemovalApplied : Bool
  deriving Repr, DecidableEq

/-- Step 0 of `parse_model_output`: `cleaned = cls._apply_forced_removal(raw_output)`. -/
def pmoStep0 (raw : String) : String := applyForcedRemoval raw

/-- Step 1: `cleaned = cls._remove_prefix_patterns(cleaned)`. -/
def pmoStep1 (raw : String) : String := removePrefixPatterns (pmoStep0 raw)

/-- Step 2: `cleaned = cls._remove_thinking_tags(cleaned)`. -/
def pmoStep2 (raw : String) : String := removeThinkingTags (pmoStep1 raw)

/-- Step 2.5: `cleaned = cls._remove_answer_tags(cleaned)`. -/
def pmoStep25 (raw : String) : String := removeAnswerTags (pmoStep2 raw)

/-- Step 3: `cleaned, removed_intro = cls._remove_instruction_echo_at_start(cleaned)`. -/
def pmoStep3 (raw : String) : String × Bool := removeInstructionEchoAtStart (pmoStep25 raw)

/-- Step 4: `cleaned, start_marker = cls._extract_from_start_marker(cleaned)`. -/
def pmoStep4 (raw : String) : String × Option String := extractFromStartMarker (pmoStep3 raw).1

/-- Step 5: `cleaned = cls._remove_prompt_artifacts(cleaned)`. -/
def pmoStep5 (raw : String) : String := removePromptArtifactsOC (pmoStep4 raw).1

/-- Content-start enforcement: `cleaned, content_start_detected =
cls._enforce_content_start(cleaned)`.  Its first component is the cumulative
result of all sanitization stages, against which the 30% safety check is
made. -/
def pmoStep6 (raw : String) : String × Bool := enforceContentStart (pmoStep5 raw)

/-- `TranslationOutputContract.parse_model_output`.  The 30%-length check
`len(cleaned) < original_length * 0.3` is embedded as the exact
`10*len < 3*original`, with which the IEEE comparison agrees. -/
def parseModelOutput (rawOutput : String) : String × SanitizeMetadata :=
  if rawOutput = "" then
    ("", { status := "empty", originalLength := 0, cleanedLength := 0,
           removedPref := none, removedSuffix := none, hasChinese := false,
           validationErrors := [], forcedRemovalApplied := false })
  else
    let forcedApplied := pmoStep0 rawOutput != rawOutput
    let removedPref1 : Option String :=
      if pmoStep1 rawOutput != rawOutput then some "pattern_match" else none
    let removedPref2 := if (pmoStep3 rawOutput).2 then some "instruction_echo" else removedPref1
    let removedPref3 :=
      match (pmoStep4 rawOutput).2 with
      | some m => some ("marker:" ++ m)
      | none => removedPref2
    let errs1 : List String := if (pmoStep6 rawOutput).2 then [] else ["no_valid_content_start"]
    let p :=
      if !forcedApplied
          && decide (10 * (pmoStep6 rawOutput).1.length < 3 * rawOutput.length) then
        (minimalCleanup rawOutput, errs1 ++ ["over_aggressive_cleaning"])
      else ((pmoStep6 rawOutput).1, errs1)
    let status := if p.1.length = 0 then "empty" else "cleaned"
    (p.1,
     { status := status, originalLength := rawOutput.length,
       cleanedLength := p.1.length,
       removedPref := removedPref3, removedSuffix := none,
       hasChinese := 0 < chineseCharCount (pmoStep6 rawOutput).1,
       validationErrors := p.2, forcedRemovalApplied := forcedApplied })

/-- The lead-in phrases of the `PREFIX_CLEANUP_PATTERNS`, shortened to their
whitespace-free mandatory stems. -/
def prefixPhraseStart (lower : String) : Bool :=
  startsWithStr lower "here is the" || startsWithStr lower "translation"
    || startsWithStr lower "translated content" || startsWithStr lower "好的，这是"
    || startsWithStr lower "这是您提供的" || startsWithStr lower "以下是翻译后"

/-- One line free of every artifact category listed by the idempotence
claim: forced-removal triggers (section triggers, directive lines,
glossary-entry lines), known prefixes, reasoning/answer tags,
instruction-echo lines, content-start markers, and artifact phrases. -/
def lineArtifactFree (line : String) : Bool :=
  let stripped := pyStrip line
  let lower := pyLower stripped
  !(forcedRemovalTriggers.any (fun p => strContains lower p))
  && !(directiveStarts.any (fun p => startsWithStr lower p))
  && !(isGlossaryEntryLine stripped)
  && !(prefixPhraseStart lower)
  && !(strContains lower "<thinking>") && !(strContains lower "</thinking>")
  && !(strContains lower "<analysis>") && !(strContains lower "</analysis>")
  && !(strContains lower "<reasoning>") && !(strContains lower "</reasoning>")
  && !(strContains lower "<answer>") && !(strContains lower "</answer>")
  && !(strContains lower "assistant>")
  && !(nonContentPatterns.any (fun p => strContains lower p))
  && !(contentStartMarkers.any (fun m => startsWithStr lower (pyLower m)))
  && !(ocArtifactKeywords.any (fun kw => strContains lower kw))

/-- Every line of the text is free of the claim's artifact categories. -/
def artifactFreeClaim (text : String) : Bool :=
  (pySplitLines text).all lineArtifactFree

/-- No line matches the content-start skip patterns (`IMPORTANT`, `=`, …). -/
def skipPatternFree (text : String) : Bool :=
  (pySplitLines text).all (fun l => !(skipPatternHit (pyStrip l)))

/-- CPython raises `IndexError` inside `_remove_instruction_echo_at_start`
when the echo scan evaluates the eager `is_numbered_list` test on a line
whose stripped form is a single digit character (`line[1]` on a length-1
string); on such inputs — `"5"` is one — `parse_model_output` crashes
instead of returning.  Under the fixpoint hypotheses the scan terminates at
the first line, so this predicate — the first line's stripped form is not a
bare digit — excludes the crashing inputs; because Python's `str.isdigit` is
Unicode-aware (`'²'.isdigit()` is `True`), the single-character case
conservatively also excludes any non-ASCII character.  The (total) embedding
does not itself need the hypothesis, the claim over the program does. -/
def firstLineNotBareDigit (text : String) : Bool :=
  let stripped := pyStrip ((pySplitLines text).getD 0 "")
  !(decide (stripped.length = 1)
    && ((stripped.data.headD ' ').isDigit
        || decide (127 < (stripped.data.headD ' ').toNat)))

/-- No line of the text is blank (in particular the text is non-empty). -/
def noBlankLines (text : String) : Bool :=
  (pySplitLines text).all (fun l => pyStrip l != "")

/-- The claim's reading of the classifier, stated predicate by predicate:
modelId contains one of the fixed reasoning keywords. -/
def hasReasoningKeyword (modelId : String) : Prop :=
  ∃ kw ∈ reasoningKeywords, strContains (pyLower modelId) kw = true

/-- The backend name contains one of the fixed MT keywords. -/
def backendIsMT (backendName : Option String) : Prop :=
  ∃ kw ∈ mtLikeKeywords, strContains (providerLowerOf backendName) kw = true

/-- The model id contains one of the fixed MT keywords. -/
def modelIsMT (modelId : String) : Prop :=
  ∃ kw ∈ mtLikeKeywords, strContains (pyLower modelId) kw = true

/-- The model id contains the chat-model exclusion marker `qwen`. -/
def modelHasQwen (modelId : String) : Prop :=
  strContains (pyLower modelId) "qwen" = true

/-! ## Basic lemmas -/

theorem string_eq_empty_of_length_eq_zero {s : String} (h : s.length = 0) : s = "" := by
  cases s with
  | mk data =>
    cases data with
    | nil => rfl
    | cons c cs => simp [String.length] at h

/-! ## Theorems for the claims C3, C4, C5 -/

/-- C3: the translation validator accepts a candidate iff it is non-empty and
the fraction of Chinese (U+4E00–U+9FFF) characters among all its characters
is strictly below 0.30; in particular a ratio of exactly 0.30 is rejected and
the empty string is rejected. -/
theorem validator_accepts_iff_ratio_below_030 (s : String) :
    validateTranslation s = true ↔
      s ≠ "" ∧ (chineseCharCount s : ℚ) / s.length < 3/10 := by
  unfold validateTranslation
  by_cases h : s = ""
  · simp [h]
  · have hlen : s.length ≠ 0 := fun h0 => h (string_eq_empty_of_length_eq_zero h0)
    have hlpos : (0 : ℚ) < (s.length : ℚ) := by
      exact_mod_cast Nat.pos_of_ne_zero hlen
    simp only [h, if_false, ne_eq, not_false_iff, true_and, decide_eq_true_iff]
    rw [div_lt_div_iff₀ hlpos (by norm_num : (0:ℚ) < 10)]
    constructor
    · intro hn
      have h3 : ((10 * chineseCharCount s : ℕ) : ℚ) < ((3 * s.length : ℕ) : ℚ) := by
        exact_mod_cast hn
      push_cast at h3
      linarith
    · intro hq
      have h3 : ((10 * chineseCharCount s : ℕ) : ℚ) < ((3 * s.length : ℕ) : ℚ) := by
        push_cast
        linarith
      exact_mod_cast h3

theorem bilingualFilterLoop_eq_filter (ls : List String) :
    bilingualFilterLoop ls = ls.filter bilingualLineKept := by
  induction ls with
  | nil => rfl
  | cons l rest ih =>
    by_cases h : bilingualLineKept l = true <;>
      simp [bilingualFilterLoop, h, ih, List.filter]

theorem bilingualLineKept_iff (l : String) :
    bilingualLineKept l = true ↔
      pyStrip l = "" ∨ (chineseCharCount l : ℚ) / ((pyStrip l).length) ≤ 2/5 := by
  unfold bilingualLineKept
  by_cases h : pyStrip l = ""
  · simp [h]
  · have htot : (pyStrip l).length ≠ 0 := fun h0 => h (string_eq_empty_of_length_eq_zero h0)
    have hpos : (0 : ℚ) < ((pyStrip l).length : ℚ) := by
      exact_mod_cast Nat.pos_of_ne_zero htot
    simp only [h, if_false, htot, false_or, Bool.not_eq_true', decide_eq_false_iff_not,
      not_lt]
    rw [div_le_div_iff₀ hpos (by norm_num : (0:ℚ) < 5)]
    constructor
    · intro hn
      have h3 : ((5 * chineseCharCount l : ℕ) : ℚ) ≤ ((2 * (pyStrip l).length : ℕ) : ℚ) := by
        exact_mod_cast hn
      push_cast at h3
      linarith
    · intro hq
      have h3 : ((5 * chineseCharCount l : ℕ) : ℚ) ≤ ((2 * (pyStrip l).length : ℕ) : ℚ) := by
        push_cast
        linarith
      exact_mod_cast h3

/-- C4: the bilingual-line filter used for the `mt-like` profile keeps
exactly the lines whose Chinese-character count is at most 0.4 of the
stripped line's length (so a line strictly above the 0.4 boundary is dropped,
a line at exactly 0.4 is retained) and always keeps blank lines. -/
theorem bilingual_filter_drops_iff_ratio_above_04 (text : String) :
    removeChineseLinesFromBilingual text
        = pyJoin "\n" ((pySplitLines text).filter bilingualLineKept)
      ∧ ∀ l : String, bilingualLineKept l = true ↔
          pyStrip l = "" ∨ (chineseCharCount l : ℚ) / ((pyStrip l).length) ≤ 2/5 := by
  constructor
  · unfold removeChineseLinesFromBilingual
    by_cases h : text = ""
    · subst h
      rfl
    · simp [h, bilingualFilterLoop_eq_filter]
  · exact bilingualLineKept_iff

/-- C5: the model-profile classifier applies its rules in fixed precedence:
`reasoning` iff the model id contains a reasoning keyword; otherwise
`mt-like` iff the backend name contains an MT keyword, or the model id
contains an MT keyword without containing the exclusion marker `qwen`;
otherwise `chat`. -/
theorem model_profile_precedence (m : String) (p : Option String) :
    (detectModelType m p = "reasoning" ↔ hasReasoningKeyword m)
  ∧ (detectModelType m p = "mt-like" ↔
       ¬ hasReasoningKeyword m ∧ (backendIsMT p ∨ (modelIsMT m ∧ ¬ modelHasQwen m)))
  ∧ (detectModelType m p = "chat" ↔
       ¬ hasReasoningKeyword m ∧ ¬ backendIsMT p
         ∧ ¬ (modelIsMT m ∧ ¬ modelHasQwen m)) := by
  have hr : (reasoningKeywords.any (fun kw => strContains (pyLower m) kw) = true)
      ↔ hasReasoningKeyword m := by
    simp [hasReasoningKeyword, List.any_eq_true]
  have hb : (mtLikeKeywords.any (fun kw => strContains (providerLowerOf p) kw) = true)
      ↔ backendIsMT p := by
    simp [backendIsMT, List.any_eq_true]
  have hm : (mtLikeKeywords.any (fun kw => strContains (pyLower m) kw) = true)
      ↔ modelIsMT m := by
    simp [modelIsMT, List.any_eq_true]
  by_cases h1 : reasoningKeywords.any (fun kw => strContains (pyLower m) kw) = true
  · have hval : detectModelType m p = "reasoning" := by
      simp [detectModelType, h1]
    have hry : hasReasoningKeyword m := hr.mp h1
    rw [hval]
    refine ⟨⟨fun _ => hry, fun _ => rfl⟩, ?_, ?_⟩
    · exact ⟨fun hx => absurd hx (by decide), fun ⟨hnr, _⟩ => absurd hry hnr⟩
    · exact ⟨fun hx => absurd hx (by decide), fun ⟨hnr, _⟩ => absurd hry hnr⟩
  · have hnr : ¬ hasReasoningKeyword m := fun hx => h1 (hr.mpr hx)
    by_cases h2 : mtLikeKeywords.any (fun kw => strContains (providerLowerOf p) kw) = true
    · have hval : detectModelType m p = "mt-like" := by
        simp [detectModelType, h1, h2]
      have hby : backendIsMT p := hb.mp h2
      rw [hval]
      refine ⟨?_, ?_, ?_⟩
      · exact ⟨fun hx => absurd hx (by decide), fun hx => absurd hx hnr⟩
      · exact ⟨fun _ => ⟨hnr, Or.inl hby⟩, fun _ => rfl⟩
      · exact ⟨fun hx => absurd hx (by decide), fun ⟨_, hnb, _⟩ => absurd hby hnb⟩
    · have hnb : ¬ backendIsMT p := fun hx => h2 (hb.mpr hx)
      by_cases h3 : (!(strContains (pyLower m) "qwen")
          && mtLikeKeywords.any (fun kw => strContains (pyLower m) kw)) = true
      · have h3' : modelIsMT m ∧ ¬ modelHasQwen m := by
          rw [Bool.and_eq_true] at h3
          exact ⟨hm.mp h3.2, by simpa [modelHasQwen] using h3.1⟩
        have hval : detectModelType m p = "mt-like" := by
          simp [detectModelType, h1, h2, h3]
        rw [hval]
        refine ⟨?_, ?_, ?_⟩
        · exact ⟨fun hx => absurd hx (by decide), fun hx => absurd hx hnr⟩
        · exact ⟨fun _ => ⟨hnr, Or.inr h3'⟩, fun _ => rfl⟩
        · exact ⟨fun hx => absurd hx (by decide), fun ⟨_, _, hq⟩ => absurd h3' hq⟩
      · have h3' : ¬ (modelIsMT m ∧ ¬ modelHasQwen m) := by
          intro ⟨hmt, hq⟩
          apply h3
          rw [Bool.and_eq_true]
          exact ⟨by simpa [modelHasQwen] using hq, hm.mpr hmt⟩
        have hval : detectModelType m p = "chat" := by
          simp [detectModelType, h1, h2, h3]
        rw [hval]
        refine ⟨?_, ?_, ?_⟩
        · exact ⟨fun hx => absurd hx (by decide), fun hx => absurd hx hnr⟩
        · refine ⟨fun hx => absurd hx (by decide), ?_⟩
          rintro ⟨-, hcase⟩
          rcases hcase with hby | hmq
          · exact absurd hby hnb
          · exact absurd hmq h3'
        · exact ⟨fun _ => ⟨hnr, hnb, h3'⟩, fun _ => rfl⟩

/-! ## Segmentation round trip (C2) -/

theorem takeCodeBody_append (ls : List String) :
    (takeCodeBody ls).1 ++ (takeCodeBody ls).2 = ls := by
  induction ls with
  | nil => rfl
  | cons l rest ih =>
    by_cases h : isFenceLine l = true <;> simp [takeCodeBody, h, ih]

theorem takeCodeBody_len (ls : List String) :
    (takeCodeBody ls).2.length ≤ ls.length := by
  induction ls with
  | nil => simp [takeCodeBody]
  | cons l rest ih =>
    by_cases h : isFenceLine l = true <;> simp [takeCodeBody, h] <;> omega

theorem takeListItems_append (ls : List String) :
    (takeListItems ls).1 ++ (takeListItems ls).2 = ls := by
  induction ls with
  | nil => rfl
  | cons l rest ih =>
    by_cases h : isListContinuationLine l = true <;> simp [takeListItems, h, ih]

theorem takeListItems_len (ls : List String) :
    (takeListItems ls).2.length ≤ ls.length := by
  induction ls with
  | nil => simp [takeListItems]
  | cons l rest ih =>
    by_cases h : isListContinuationLine l = true <;> simp [takeListItems, h] <;> omega

theorem takeParagraph_append (ls : List String) :
    (takeParagraph ls).1 ++ (takeParagraph ls).2 = ls := by
  induction ls with
  | nil => rfl
  | cons l rest ih =>
    by_cases h : isParagraphBreakLine l = true <;> simp [takeParagraph, h, ih]

theorem takeParagraph_len (ls : List String) :
    (takeParagraph ls).2.length ≤ ls.length := by
  induction ls with
  | nil => simp [takeParagraph]
  | cons l rest ih =>
    by_cases h : isParagraphBreakLine l = true <;> simp [takeParagraph, h] <;> omega

theorem pyJoin_cons (sep x : String) (us : List String) :
    pyJoin sep (x :: us) = x ++ (if us = [] then "" else sep ++ pyJoin sep us) := by
  cases us with
  | nil => simp [pyJoin]
  | cons y ys => simp [pyJoin, String.append_assoc]

theorem pyJoin_append (sep : String) (g rs : List String) (hg : g ≠ []) :
    pyJoin sep (g ++ rs) = pyJoin sep g ++ (if rs = [] then "" else sep ++ pyJoin sep rs) := by
  induction g with
  | nil => exact absurd rfl hg
  | cons x g ih =>
    cases g with
    | nil => simpa using pyJoin_cons sep x rs
    | cons y g2 =>
      have ih' := ih (by simp)
      rw [show (x :: y :: g2) ++ rs = x :: ((y :: g2) ++ rs) from rfl]
      rw [show pyJoin sep (x :: ((y :: g2) ++ rs))
            = x ++ sep ++ pyJoin sep ((y :: g2) ++ rs) by
          rw [List.cons_append]
          rfl]
      rw [ih']
      rw [show pyJoin sep (x :: y :: g2) = x ++ sep ++ pyJoin sep (y :: g2) from rfl]
      by_cases hrs : rs = [] <;> simp [hrs, String.append_assoc]

theorem parseUnitsF_nil (fuel : Nat) : parseUnitsF fuel [] = [] := by
  cases fuel <;> rfl

theorem parseUnitsF_eq_nil_iff (fuel : Nat) (ls : List String) (h : ls.length ≤ fuel) :
    parseUnitsF fuel ls = [] ↔ ls = [] := by
  cases ls with
  | nil => simp [parseUnitsF_nil]
  | cons l rest =>
    cases fuel with
    | zero => simp at h
    | succ f =>
      simp only [parseUnitsF]
      constructor
      · intro hx
        split_ifs at hx <;> simp_all
      · intro hx
        exact absurd hx (by simp)

theorem parseUnitsF_join (fuel : Nat) : ∀ ls : List String, ls.length ≤ fuel →
    pyJoin "\n" (parseUnitsF fuel ls) = pyJoin "\n" ls := by
  induction fuel with
  | zero =>
    intro ls h
    have hnil : ls = [] := by cases ls <;> simp_all
    simp [hnil, parseUnitsF_nil]
  | succ f ih =>
    intro ls h
    cases ls with
    | nil => rfl
    | cons l rest =>
      have hlen : rest.length ≤ f := by
        simp only [List.length_cons] at h
        omega
      have key : ∀ c rs : List String, c ++ rs = rest → rs.length ≤ f →
          pyJoin "\n" (pyJoin "\n" (l :: c) :: parseUnitsF f rs) = pyJoin "\n" (l :: rest) := by
        intro c rs hsplit hrs
        rw [pyJoin_cons "\n" (pyJoin "\n" (l :: c)) (parseUnitsF f rs)]
        by_cases hrsnil : rs = []
        · have : parseUnitsF f rs = [] := by
            rw [hrsnil]
            exact parseUnitsF_nil f
          rw [if_pos this, ← hsplit, hrsnil, List.append_nil, String.append_empty]
        · have hne : ¬ parseUnitsF f rs = [] := by
            rw [parseUnitsF_eq_nil_iff f rs hrs]
            exact hrsnil
          rw [if_neg hne, ih rs hrs, ← hsplit,
            show l :: (c ++ rs) = (l :: c) ++ rs from rfl,
            pyJoin_append "\n" (l :: c) rs (by simp), if_neg hrsnil]
      simp only [parseUnitsF]
      split_ifs with h1 h2 h3 h4 h5 h6
      · exact key _ _ (takeCodeBody_append rest) (le_trans (takeCodeBody_len rest) hlen)
      · exact key [] rest rfl hlen
      · exact key _ _ (takeListItems_append rest) (le_trans (takeListItems_len rest) hlen)
      · exact key [] rest rfl hlen
      · exact key [] rest rfl hlen
      · exact key [] rest rfl hlen
      · exact key _ _ (takeParagraph_append rest) (le_trans (takeParagraph_len rest) hlen)

theorem splitNl_ne_nil (cs : List Char) : splitNl cs ≠ [] := by
  induction cs with
  | nil => simp [splitNl]
  | cons c cs ih =>
    simp only [splitNl]
    cases hsp : splitNl cs with
    | nil => exact absurd hsp ih
    | cons g gs =>
      by_cases hc : c = '\n' <;> simp [hc]

theorem pyJoin_splitNl (cs : List Char) :
    pyJoin "\n" ((splitNl cs).map String.mk) = String.mk cs := by
  induction cs with
  | nil => rfl
  | cons c cs ih =>
    cases hsp : splitNl cs with
    | nil => exact absurd hsp (splitNl_ne_nil cs)
    | cons g gs =>
      rw [hsp] at ih
      simp only [splitNl, hsp]
      by_cases hc : c = '\n'
      · subst hc
        rw [if_pos rfl]
        rw [show ((([] : List Char) :: g :: gs).map String.mk)
              = String.mk [] :: String.mk g :: gs.map String.mk from rfl]
        rw [show pyJoin "\n" (String.mk [] :: String.mk g :: gs.map String.mk)
              = String.mk [] ++ "\n" ++ pyJoin "\n" (String.mk g :: gs.map String.mk) from rfl]
        rw [show (String.mk g :: gs.map String.mk) = (g :: gs).map String.mk from rfl, ih]
        apply String.ext
        simp [String.data_append]
      · rw [if_neg hc]
        rw [show (((c :: g) :: gs).map String.mk)
              = String.mk (c :: g) :: gs.map String.mk from rfl]
        cases gs with
        | nil =>
          have hg : g = cs := by
            have := String.ext_iff.mp ih
            simpa using this
          subst hg
          rfl
        | cons g2 gs2 =>
          have ihd := congrArg String.data ih
          apply String.ext
          show (String.mk (c :: g) ++ "\n" ++ pyJoin "\n" (String.mk g2 :: gs2.map String.mk)).data
              = c :: cs
          have ihd' : (String.mk g ++ "\n" ++ pyJoin "\n" (String.mk g2 :: gs2.map String.mk)).data
              = cs := ihd
          simp only [String.data_append] at ihd' ⊢
          try simp only [show (String.mk (c :: g)).data = c :: g from rfl,
            show (String.mk g).data = g from rfl] at ihd' ⊢
          try simp only [List.cons_append]
          rw [ihd']

theorem pyJoin_pySplitLines (s : String) : pyJoin "\n" (pySplitLines s) = s := by
  unfold pySplitLines
  rw [pyJoin_splitNl]

/-- C2: segmentation is lossless: for every input document, joining the
contents of the units produced by the segmenter
(`_parse_translation_units`) with the newline separator reproduces the
source document exactly (in particular for documents made only of
paragraph and empty-line units). -/
theorem segmentation_round_trip (text : String) :
    pyJoin "\n" (parseTranslationUnits text) = text := by
  unfold parseTranslationUnits
  rw [parseUnitsF_join (pySplitLines text).length (pySplitLines text) le_rfl]
  exact pyJoin_pySplitLines text

/-! ## Theorems for the claims C1 and C8 -/

/-- C1: if the cumulative result of the sanitization stages is shorter than
30% of the raw input's length and forced block removal did not change the
input, then `parse_model_output` returns exactly the minimal cleanup
(reasoning-tag removal followed by known-prefix stripping) of the raw input
and records the over-aggressive-cleaning diagnostic in `validation_errors`,
returning normally with a `cleaned`/`empty` status rather than an error; if
forced removal did change the input, the shortened cumulative result is
returned as-is. -/
theorem overaggressive_selfheal (raw : String) :
    (pmoStep0 raw = raw → 10 * (pmoStep6 raw).1.length < 3 * raw.length →
       (parseModelOutput raw).1 = minimalCleanup raw
     ∧ "over_aggressive_cleaning" ∈ (parseModelOutput raw).2.validationErrors
     ∧ ((parseModelOutput raw).2.status = "cleaned"
        ∨ (parseModelOutput raw).2.status = "empty"))
  ∧ (pmoStep0 raw ≠ raw → 10 * (pmoStep6 raw).1.length < 3 * raw.length →
       (parseModelOutput raw).1 = (pmoStep6 raw).1) := by
  have hlen0 : raw = "" → 3 * raw.length = 0 := by
    intro h
    subst h
    rfl
  constructor
  · intro h1 h2
    have hraw : raw ≠ "" := by
      intro h
      rw [hlen0 h] at h2
      omega
    have hcond : (!(pmoStep0 raw != raw)
        && decide (10 * (pmoStep6 raw).1.length < 3 * raw.length)) = true := by
      simp [h1, h2]
    unfold parseModelOutput
    rw [if_neg hraw]
    simp only [hcond, if_true]
    refine ⟨by trivial, by simp, ?_⟩
    by_cases hz : (minimalCleanup raw).length = 0 <;> simp [hz]
  · intro h1 h2
    have hraw : raw ≠ "" := by
      intro h
      rw [hlen0 h] at h2
      omega
    have hcond : (!(pmoStep0 raw != raw)
        && decide (10 * (pmoStep6 raw).1.length < 3 * raw.length)) = false := by
      simp [bne_iff_ne, h1]
    unfold parseModelOutput
    rw [if_neg hraw]
    simp only [hcond, Bool.false_eq_true, if_false]

theorem overaggressive_selfheal_witness :
    pmoStep0 "a=b\n\na=b\n\na=b\n\na=b\n\na=b\n\n# Summary."
        = "a=b\n\na=b\n\na=b\n\na=b\n\na=b\n\n# Summary."
  ∧ 10 * (pmoStep6 "a=b\n\na=b\n\na=b\n\na=b\n\na=b\n\n# Summary.").1.length
        < 3 * ("a=b\n\na=b\n\na=b\n\na=b\n\na=b\n\n# Summary." : String).length
  ∧ (parseModelOutput "a=b\n\na=b\n\na=b\n\na=b\n\na=b\n\n# Summary.").1
        = minimalCleanup "a=b\n\na=b\n\na=b\n\na=b\n\na=b\n\n# Summary."
  ∧ "over_aggressive_cleaning"
        ∈ (parseModelOutput "a=b\n\na=b\n\na=b\n\na=b\n\na=b\n\n# Summary.").2.validationErrors := by
  have h1 : pmoStep0 "a=b\n\na=b\n\na=b\n\na=b\n\na=b\n\n# Summary."
      = "a=b\n\na=b\n\na=b\n\na=b\n\na=b\n\n# Summary." := by decide
  have h2 : 10 * (pmoStep6 "a=b\n\na=b\n\na=b\n\na=b\n\na=b\n\n# Summary.").1.length
      < 3 * ("a=b\n\na=b\n\na=b\n\na=b\n\na=b\n\n# Summary." : String).length := by decide
  have h := (overaggressive_selfheal "a=b\n\na=b\n\na=b\n\na=b\n\na=b\n\n# Summary.").1 h1 h2
  exact ⟨h1, h2, h.1, h.2.1⟩

/-- C8 counterexample: sanitizing
`"<thinking>plan...</thinking># Title\n\nHello"` does not yield
`"# Title\n\nHello"` — the blank-line cleanup bundled with reasoning-tag
removal drops the internal blank line. -/
theorem scenario_b_blank_line_cex :
    (parseModelOutput "<thinking>plan...</thinking># Title\n\nHello").1
      ≠ "# Title\n\nHello" := by
  decide

/-- C8 amended: sanitizing `"<thinking>plan...</thinking># Title\n\nHello"`
yields exactly `"# Title\nHello"`: the reasoning-tag span is deleted in
full, and the blank-line cleanup inside tag removal collapses the internal
blank line; the remaining content is otherwise unchanged.  This holds for
the output contract, for the translator's chat-profile cleaner, and for the
tag-removal stage itself. -/
theorem scenario_b_sanitized :
    (parseModelOutput "<thinking>plan...</thinking># Title\n\nHello").1 = "# Title\nHello"
  ∧ cleanModelOutput "chat" "<thinking>plan...</thinking># Title\n\nHello" = "# Title\nHello"
  ∧ removeThinkingTags "<thinking>plan...</thinking># Title\n\nHello" = "# Title\nHello" :=
  ⟨by decide, by decide, by decide⟩

/-- C9 counterexample: an input whose every line is free of the claim's
artifact categories, on which the sanitizer is not idempotent: on the first
run the 30% safety check trips (the `=`-bearing lines are dropped by
content-start enforcement and the blank lines inflate the raw length), so
the run self-heals to the blank-stripped text; the second run, whose
baseline length is smaller, keeps the aggressive result and drops the
`=`-bearing lines for good. -/
theorem sanitizer_not_idempotent_cex :
    artifactFreeClaim "a=b\n\na=b\n\na=b\n\na=b\n\na=b\n\n# Summary." = true
  ∧ (parseModelOutput (parseModelOutput "a=b\n\na=b\n\na=b\n\na=b\n\na=b\n\n# Summary.").1).1
      ≠ (parseModelOutput "a=b\n\na=b\n\na=b\n\na=b\n\na=b\n\n# Summary.").1 :=
  ⟨by decide, by decide⟩

/-! ## Theorems for the claims C6, C7, C10 -/

/-- C6: the per-profile retry budget is `chat`=2, `reasoning`=1, `mt-like`=1
generation attempts, and a chat-profile translation whose candidates fail
validation on both attempts makes exactly 2 generation attempts and then
returns the original input text unchanged. -/
theorem chat_retry_budget_two_attempts :
    maxRetriesFor "chat" = 2 ∧ maxRetriesFor "reasoning" = 1 ∧ maxRetriesFor "mt-like" = 1 ∧
    ∀ (gen : Nat → Except String String) (text : String),
      validateTranslation (translateOnce gen "chat" text 0) = false →
      validateTranslation (translateOnce gen "chat" text 1) = false →
      translateRun gen "chat" text = (text, 2) := by
  refine ⟨rfl, rfl, rfl, fun gen text h0 h1 => ?_⟩
  simp [translateRun, translateLoop, maxRetriesFor, h0, h1]

theorem chat_retry_budget_two_attempts_witness :
    validateTranslation (translateOnce
        (fun _ => Except.ok "这是一个完全中文的句子，没有英文。") "chat" "原文档内容" 0) = false
  ∧ translateRun (fun _ => Except.ok "这是一个完全中文的句子，没有英文。") "chat" "原文档内容"
      = ("原文档内容", 2) := by
  have h0 : validateTranslation (translateOnce
      (fun _ => Except.ok "这是一个完全中文的句子，没有英文。") "chat" "原文档内容" 0) = false := by
    decide
  have h1 : validateTranslation (translateOnce
      (fun _ => Except.ok "这是一个完全中文的句子，没有英文。") "chat" "原文档内容" 1) = false := by
    decide
  exact ⟨h0, chat_retry_budget_two_attempts.2.2.2 _ _ h0 h1⟩

/-- C7 counterexample: for a chat-profile model whose Generator errors on the
first attempt and succeeds on the second, the error does trigger a further
generation attempt (2 attempts are recorded) and the final content is the
second attempt's candidate, not the unchanged original — refuting the claim
that a Generator error resolves directly to fallback-to-original with no
retry budget consumed. -/
theorem generator_error_consumes_budget_cex :
    (fun n => if n = 0 then Except.error "timeout"
              else Except.ok "This is a long English sentence.") 0
        = (Except.error "timeout" : Except String String)
  ∧ translateRun
      (fun n => if n = 0 then Except.error "timeout"
                else Except.ok "This is a long English sentence.")
      "chat" "这是中文内容。"
      = ("This is a long English sentence.", 2)
  ∧ ("This is a long English sentence." : String) ≠ "这是中文内容。" := by
  exact ⟨rfl, by decide, by decide⟩

/-- C7 amended: when the Generator raises an error, that attempt's candidate
is the original text; under the `mt-like` and `reasoning` profiles (budget 1)
the original is returned with exactly one generation attempt, and likewise
under `chat` when the original passes validation; but under `chat`, when the
original text fails validation, the error consumes the attempt and a second
generation attempt is made (whose candidate, if valid, is returned). -/
theorem generator_error_fallback (gen : Nat → Except String String)
    (text msg : String) (herr : gen 0 = Except.error msg) :
    translateOnce gen "mt-like" text 0 = text
  ∧ translateOnce gen "reasoning" text 0 = text
  ∧ translateOnce gen "chat" text 0 = text
  ∧ translateRun gen "mt-like" text = (text, 1)
  ∧ translateRun gen "reasoning" text = (text, 1)
  ∧ (validateTranslation text = true → translateRun gen "chat" text = (text, 1))
  ∧ (validateTranslation text = false →
       translateRun gen "chat" text =
         (if validateTranslation (translateOnce gen "chat" text 1) = true
          then (translateOnce gen "chat" text 1, 2) else (text, 2))) := by
  have hone : ∀ mt, translateOnce gen mt text 0 = text := fun mt => by
    simp [translateOnce, herr]
  refine ⟨hone _, hone _, hone _, ?_, ?_, ?_, ?_⟩
  · simp [translateRun, translateLoop, maxRetriesFor, hone]
  · by_cases hv : validateTranslation text = true
    · simp [translateRun, translateLoop, maxRetriesFor, hone, hv]
    · simp [translateRun, translateLoop, maxRetriesFor, hone, hv]
  · intro hv
    simp [translateRun, translateLoop, maxRetriesFor, hone, hv]
  · intro hv
    by_cases hv1 : validateTranslation (translateOnce gen "chat" text 1) = true
    · simp [translateRun, translateLoop, maxRetriesFor, hone, hv, hv1]
    · simp [translateRun, translateLoop, maxRetriesFor, hone, hv, hv1]

theorem generator_error_fallback_witness :
    translateRun (fun _ => Except.error "boom") "mt-like" "这是中文内容。"
      = ("这是中文内容。", 1) :=
  (generator_error_fallback (fun _ => Except.error "boom") "这是中文内容。" "boom" rfl).2.2.2.1

/-- C10: under the `mt-like` profile, translate performs exactly one
generation attempt and returns its candidate unconditionally — no
source-script-ratio validation gate is applied, and no fallback to the
original happens because of validation; on a successful generation the
candidate is the bilingual-filtered and cleaned output (with the source's
passthroughs for short raw outputs and for cleaning that empties the text),
and the original text is returned only on a Generator error. -/
theorem mtlike_returns_cleaned_without_validation
    (gen : Nat → Except String String) (text : String) :
    translateRun gen "mt-like" text = (translateOnce gen "mt-like" text 0, 1)
  ∧ (∀ raw, gen 0 = Except.ok raw →
       translateOnce gen "mt-like" text 0 =
         (if pyStrip (cleanModelOutput "mt-like" raw) = ""
          then raw else cleanModelOutput "mt-like" raw))
  ∧ (∀ raw, gen 0 = Except.ok raw → raw ≠ "" → ¬ (pyStrip raw).length < 10 →
       cleanModelOutput "mt-like" raw
         = finalCleanup (removeChineseLinesFromBilingual raw))
  ∧ (∀ msg, gen 0 = Except.error msg → translateRun gen "mt-like" text = (text, 1)) := by
  refine ⟨?_, ?_, ?_, ?_⟩
  · simp [translateRun, translateLoop, maxRetriesFor]
  · intro raw hok
    simp [translateOnce, hok]
  · intro raw hok hne hlen
    simp [cleanModelOutput, hne, hlen]
  · intro msg herr
    have hone : translateOnce gen "mt-like" text 0 = text := by
      simp [translateOnce, herr]
    simp [translateRun, translateLoop, maxRetriesFor, hone]

theorem mtlike_returns_cleaned_without_validation_witness :
    cleanModelOutput "mt-like" "中中中中abcdefg"
        = finalCleanup (removeChineseLinesFromBilingual "中中中中abcdefg")
  ∧ translateRun (fun _ => Except.ok "中中中中abcdefg") "mt-like" "原文" = ("中中中中abcdefg", 1)
  ∧ validateTranslation "中中中中abcdefg" = false := by
  have h := mtlike_returns_cleaned_without_validation
    (fun _ => Except.ok "中中中中abcdefg") "原文"
  refine ⟨h.2.2.1 _ rfl (by decide) (by decide), ?_, by decide⟩
  rw [h.1]
  decide

/-! ## Character-level lemmas for the sanitizer fixpoint -/

theorem charOfNat_toNat (n : Nat) (h : n.isValidChar) : (Char.ofNat n).toNat = n := by
  unfold Char.ofNat
  rw [dif_pos h]
  unfold Char.ofNatAux Char.toNat
  simp [UInt32.toNat, BitVec.toNat_ofNatLt]

theorem toNat_eq_of_eq {c d : Char} (h : c = d) : c.toNat = d.toNat := by rw [h]

theorem toLower_def (c : Char) :
    Char.toLower c = if c.toNat ≥ 65 ∧ c.toNat ≤ 90 then Char.ofNat (c.toNat + 32) else c := rfl

theorem toLower_eq_nl (c : Char) : (Char.toLower c = '\n') ↔ (c = '\n') := by
  rw [toLower_def]
  by_cases h : c.toNat ≥ 65 ∧ c.toNat ≤ 90
  case pos =>
    rw [if_pos h]
    have hv : ((c.toNat + 32).isValidChar) := by
      left
      omega
    constructor
    · intro he
      have h10 := toNat_eq_of_eq he
      rw [charOfNat_toNat _ hv, show ('\n').toNat = 10 from by decide] at h10
      omega
    · intro he
      rw [toNat_eq_of_eq he, show ('\n').toNat = 10 from by decide] at h
      omega
  case neg =>
    rw [if_neg h]

theorem pyIsSpace_toLower (c : Char) : pyIsSpace (Char.toLower c) = pyIsSpace c := by
  rw [toLower_def]
  by_cases h : c.toNat ≥ 65 ∧ c.toNat ≤ 90
  case pos =>
    rw [if_pos h]
    have hv : ((c.toNat + 32).isValidChar) := by
      left
      omega
    have h1 : (Char.ofNat (c.toNat + 32)).toNat = c.toNat + 32 := charOfNat_toNat _ hv
    have hne : ∀ d : Char, (Char.ofNat (c.toNat + 32)).toNat ≠ d.toNat →
        Char.ofNat (c.toNat + 32) ≠ d :=
      fun d hd he => hd (toNat_eq_of_eq he)
    have hne2 : ∀ d : Char, c.toNat ≠ d.toNat → c ≠ d :=
      fun d hd he => hd (toNat_eq_of_eq he)
    have s1 := hne ' ' (by rw [h1, show (' ').toNat = 32 from by decide]; omega)
    have s2 := hne '\t' (by rw [h1, show ('\t').toNat = 9 from by decide]; omega)
    have s3 := hne '\n' (by rw [h1, show ('\n').toNat = 10 from by decide]; omega)
    have s4 := hne '\r' (by rw [h1, show ('\r').toNat = 13 from by decide]; omega)
    have s5 := hne '\x0b' (by rw [h1, show ('\x0b').toNat = 11 from by decide]; omega)
    have s6 := hne '\x0c' (by rw [h1, show ('\x0c').toNat = 12 from by decide]; omega)
    have t1 := hne2 ' ' (by rw [show (' ').toNat = 32 from by decide]; omega)
    have t2 := hne2 '\t' (by rw [show ('\t').toNat = 9 from by decide]; omega)
    have t3 := hne2 '\n' (by rw [show ('\n').toNat = 10 from by decide]; omega)
    have t4 := hne2 '\r' (by rw [show ('\r').toNat = 13 from by decide]; omega)
    have t5 := hne2 '\x0b' (by rw [show ('\x0b').toNat = 11 from by decide]; omega)
    have t6 := hne2 '\x0c' (by rw [show ('\x0c').toNat = 12 from by decide]; omega)
    simp [pyIsSpace, s1, s2, s3, s4, s5, s6, t1, t2, t3, t4, t5, t6]
  case neg =>
    rw [if_neg h]

/-! ## Prefix/infix lemmas -/

theorem isPrefL_append_self (p t : List Char) : isPrefL p (p ++ t) = true := by
  induction p with
  | nil => rfl
  | cons c ps ih => simp [isPrefL, ih]

theorem isPrefL_refl (p : List Char) : isPrefL p p = true := by
  have h := isPrefL_append_self p []
  simpa using h

theorem isPrefL_iff_append {p l : List Char} : isPrefL p l = true ↔ ∃ t, l = p ++ t := by
  induction p generalizing l with
  | nil => simp [isPrefL]
  | cons c ps ih =>
    cases l with
    | nil => simp [isPrefL]
    | cons b bs =>
      simp only [isPrefL, Bool.and_eq_true, decide_eq_true_eq]
      constructor
      · rintro ⟨rfl, h2⟩
        obtain ⟨t, rfl⟩ := ih.mp h2
        exact ⟨t, rfl⟩
      · rintro ⟨t, ht⟩
        rw [List.cons_append] at ht
        injection ht with h1 h2
        exact ⟨h1.symm, ih.mpr ⟨t, h2⟩⟩

theorem isPrefL_trans {p q l : List Char} (h1 : isPrefL p q = true) (h2 : isPrefL q l = true) :
    isPrefL p l = true := by
  obtain ⟨t1, rfl⟩ := isPrefL_iff_append.mp h1
  obtain ⟨t2, rfl⟩ := isPrefL_iff_append.mp h2
  rw [List.append_assoc]
  exact isPrefL_append_self _ _

theorem isPrefL_map {p l : List Char} (f : Char → Char) (h : isPrefL p l = true) :
    isPrefL (p.map f) (l.map f) = true := by
  obtain ⟨t, rfl⟩ := isPrefL_iff_append.mp h
  rw [List.map_append]
  exact isPrefL_append_self _ _

theorem matchLitCI_lower {pat cs r : List Char} (h : matchLitCI pat cs = some r) :
    isPrefL (pat.map Char.toLower) (cs.map Char.toLower) = true := by
  induction pat generalizing cs with
  | nil => simp [isPrefL]
  | cons a as ih =>
    cases cs with
    | nil => simp [matchLitCI] at h
    | cons b bs =>
      simp only [matchLitCI] at h
      split at h
      case isTrue heq => simp [isPrefL, heq, ih h]
      case isFalse => exact absurd h (by simp)

theorem matchLit_pref {pat cs r : List Char} (h : matchLit pat cs = some r) :
    isPrefL pat cs = true := by
  induction pat generalizing cs with
  | nil => rfl
  | cons a as ih =>
    cases cs with
    | nil => simp [matchLit] at h
    | cons b bs =>
      simp only [matchLit] at h
      split at h
      case isTrue heq => simp [isPrefL, heq, ih h]
      case isFalse => exact absurd h (by simp)

theorem isPrefL_takeWhile {p l : List Char} (q : Char → Bool)
    (hq : p.all q = true) (h : isPrefL p l = true) :
    isPrefL p (l.takeWhile q) = true := by
  induction p generalizing l with
  | nil => rfl
  | cons c ps ih =>
    cases l with
    | nil => simp [isPrefL] at h
    | cons b bs =>
      simp only [isPrefL, Bool.and_eq_true, decide_eq_true_eq] at h
      obtain ⟨rfl, h2⟩ := h
      simp only [List.all_cons, Bool.and_eq_true] at hq
      rw [List.takeWhile_cons]
      simp [hq.1, isPrefL, ih hq.2 h2]

theorem infixOf_of_isPrefL {p l : List Char} (h : isPrefL p l = true) : infixOf p l = true := by
  cases l with
  | nil => simpa [infixOf] using h
  | cons c t => simp [infixOf, h]

theorem infixOf_cons {p : List Char} (c : Char) {t : List Char} (h : infixOf p t = true) :
    infixOf p (c :: t) = true := by
  simp [infixOf, h]

theorem infixOf_drop {p l : List Char} (n : Nat) (h : infixOf p (l.drop n) = true) :
    infixOf p l = true := by
  induction n generalizing l with
  | zero => simpa using h
  | succ m ih =>
    cases l with
    | nil => simpa using h
    | cons c t => exact infixOf_cons c (ih (by simpa using h))

theorem infixOf_append_left {p t : List Char} (u : List Char) (h : infixOf p t = true) :
    infixOf p (u ++ t) = true := by
  induction u with
  | nil => simpa using h
  | cons c us ih => simpa using infixOf_cons c ih

theorem infixOf_middle (p u v : List Char) : infixOf p (u ++ p ++ v) = true := by
  rw [List.append_assoc]
  exact infixOf_append_left u (infixOf_of_isPrefL (isPrefL_append_self p v))

theorem infixOf_iff {p l : List Char} : infixOf p l = true ↔ ∃ u t, l = u ++ p ++ t := by
  constructor
  · intro h
    induction l with
    | nil =>
      obtain ⟨t, ht⟩ := isPrefL_iff_append.mp (by simpa [infixOf] using h)
      exact ⟨[], t, by simpa using ht⟩
    | cons c t ih =>
      simp only [infixOf, Bool.or_eq_true] at h
      rcases h with h1 | h2
      · obtain ⟨t2, ht⟩ := isPrefL_iff_append.mp h1
        exact ⟨[], t2, by simpa using ht⟩
      · obtain ⟨u, t2, ht⟩ := ih h2
        exact ⟨c :: u, t2, by simp [ht]⟩
  · rintro ⟨u, t, rfl⟩
    exact infixOf_middle p u t

/-! ## Strip-survival lemmas -/

theorem stripEnds_eq_rstrip (l : List Char) : stripEnds l = rstripL (l.dropWhile pyIsSpace) := rfl

theorem rstripL_append (u v : List Char) :
    rstripL (u ++ v) = if rstripL v = [] then rstripL u else u ++ rstripL v := by
  unfold rstripL
  rw [List.reverse_append, List.dropWhile_append]
  split
  case isTrue h =>
    have hv : (v.reverse.dropWhile pyIsSpace).reverse = [] := by
      rw [List.reverse_eq_nil_iff]
      exact List.isEmpty_iff.mp h
    rw [if_pos hv]
  case isFalse h =>
    have hv : ¬((v.reverse.dropWhile pyIsSpace).reverse = []) := by
      rw [List.reverse_eq_nil_iff]
      exact fun hh => h (List.isEmpty_iff.mpr hh)
    rw [if_neg hv, List.reverse_append, List.reverse_reverse]

theorem isPrefL_rstripL {p : List Char} (t : List Char) (hrs : rstripL p = p) :
    isPrefL p (rstripL (p ++ t)) = true := by
  rw [rstripL_append]
  split
  · rw [hrs]
    exact isPrefL_refl p
  · exact isPrefL_append_self p _

theorem isPrefL_stripEnds {p l : List Char}
    (hhd : (p.take 1).all (fun c => !(pyIsSpace c)) = true)
    (hrs : rstripL p = p) (h : isPrefL p l = true) :
    isPrefL p (stripEnds l) = true := by
  cases p with
  | nil => rfl
  | cons c ps =>
    obtain ⟨t, rfl⟩ := isPrefL_iff_append.mp h
    have hc : pyIsSpace c = false := by simpa using hhd
    rw [stripEnds_eq_rstrip]
    have hdw : ((c :: ps) ++ t).dropWhile pyIsSpace = (c :: ps) ++ t := by
      rw [List.cons_append, List.dropWhile_cons]
      simp [hc]
    rw [hdw]
    exact isPrefL_rstripL t hrs

theorem infixOf_stripEnds {p l : List Char}
    (hne : p ≠ [])
    (hhd : (p.take 1).all (fun c => !(pyIsSpace c)) = true)
    (hrs : rstripL p = p) (h : infixOf p l = true) :
    infixOf p (stripEnds l) = true := by
  obtain ⟨u, t, rfl⟩ := infixOf_iff.mp h
  rw [stripEnds_eq_rstrip, List.append_assoc, List.dropWhile_append]
  have hpt : (p ++ t).dropWhile pyIsSpace = p ++ t := by
    cases p with
    | nil => exact absurd rfl hne
    | cons c ps =>
      have hc : pyIsSpace c = false := by simpa using hhd
      rw [List.cons_append, List.dropWhile_cons]
      simp [hc]
  have hne2 : rstripL (p ++ t) ≠ [] := by
    rw [rstripL_append]
    split
    · rw [hrs]
      exact hne
    · simp [hne]
  split
  · rw [hpt]
    exact infixOf_of_isPrefL (isPrefL_rstripL t hrs)
  · rw [rstripL_append, if_neg hne2]
    exact infixOf_append_left _ (infixOf_of_isPrefL (isPrefL_rstripL t hrs))

/-! ## splitNl and toLower -/

theorem splitNl_head (cs : List Char) :
    ∃ gs, splitNl cs = (cs.takeWhile (fun c => !(c = '\n'))) :: gs := by
  induction cs with
  | nil => exact ⟨[], rfl⟩
  | cons c t ih =>
    obtain ⟨gs, hgs⟩ := ih
    by_cases hc : c = '\n'
    · subst hc
      exact ⟨(t.takeWhile fun c => !(c = '\n')) :: gs, by simp [splitNl, hgs, List.takeWhile_cons]⟩
    · exact ⟨gs, by simp [splitNl, hgs, List.takeWhile_cons, hc]⟩

theorem splitNl_map_toLower (cs : List Char) :
    splitNl (cs.map Char.toLower) = (splitNl cs).map (List.map Char.toLower) := by
  induction cs with
  | nil => rfl
  | cons c t ih =>
    simp only [List.map_cons, splitNl, ih]
    cases hsp : splitNl t with
    | nil => exact absurd hsp (splitNl_ne_nil t)
    | cons g gs =>
      simp only [List.map_cons]
      by_cases hc : c = '\n'
      · subst hc
        simp
      · have hc2 : ¬(Char.toLower c = '\n') := fun hh => hc ((toLower_eq_nl c).mp hh)
        simp [hc, hc2]

theorem stripEnds_map_toLower (l : List Char) :
    stripEnds (l.map Char.toLower) = (stripEnds l).map Char.toLower := by
  have hfun : (pyIsSpace ∘ Char.toLower) = pyIsSpace := funext pyIsSpace_toLower
  unfold stripEnds
  rw [List.dropWhile_map, hfun, ← List.map_reverse, List.dropWhile_map, hfun, ← List.map_reverse]

theorem infixOf_splitNl {pat cs : List Char}
    (hnl : pat.all (fun c => !(c = '\n')) = true)
    (h : infixOf pat cs = true) :
    ∃ g ∈ splitNl cs, infixOf pat g = true := by
  induction cs with
  | nil => exact ⟨[], by simp [splitNl], by simpa [infixOf] using h⟩
  | cons c t ih =>
    simp only [infixOf, Bool.or_eq_true] at h
    rcases h with h1 | h2
    · have hp := isPrefL_takeWhile (fun c => !(c = '\n')) hnl h1
      obtain ⟨gs, hgs⟩ := splitNl_head (c :: t)
      exact ⟨_, by rw [hgs]; exact List.mem_cons_self _ _, infixOf_of_isPrefL hp⟩
    · obtain ⟨g, hgmem, hginf⟩ := ih h2
      cases hsp : splitNl t with
      | nil => exact absurd hsp (splitNl_ne_nil t)
      | cons g0 gs =>
        rw [hsp] at hgmem
        by_cases hc : c = '\n'
        · subst hc
          refine ⟨g, ?_, hginf⟩
          have hred : splitNl ('\n' :: t) = [] :: g0 :: gs := by simp [splitNl, hsp]
          rw [hred]
          exact List.mem_cons_of_mem _ hgmem
        · rcases List.mem_cons.mp hgmem with rfl | hmem
          · refine ⟨c :: g, ?_, infixOf_cons c hginf⟩
            simp only [splitNl, hsp, if_neg hc]
            exact List.mem_cons_self _ _
          · refine ⟨g, ?_, hginf⟩
            simp only [splitNl, hsp, if_neg hc]
            exact List.mem_cons_of_mem _ hmem

theorem infix_lower_strip_line {x : String} {pat : List Char}
    (hocc : infixOf pat (x.data.map Char.toLower) = true)
    (hnl : pat.all (fun c => !(c = '\n')) = true)
    (hne : pat ≠ [])
    (hhd : (pat.take 1).all (fun c => !(pyIsSpace c)) = true)
    (hrs : rstripL pat = pat) :
    ∃ line ∈ pySplitLines x, infixOf pat ((pyLower (pyStrip line)).data) = true := by
  obtain ⟨g, hgmem, hginf⟩ := infixOf_splitNl hnl hocc
  rw [splitNl_map_toLower] at hgmem
  obtain ⟨g0, hg0mem, rfl⟩ := List.mem_map.mp hgmem
  refine ⟨String.mk g0, List.mem_map_of_mem _ hg0mem, ?_⟩
  have hdata : (pyLower (pyStrip (String.mk g0))).data = (stripEnds g0).map Char.toLower := rfl
  rw [hdata, ← stripEnds_map_toLower]
  exact infixOf_stripEnds hne hhd hrs hginf

theorem occ_lower_false {x : String} {pat : List Char}
    (hlines : ∀ line ∈ pySplitLines x, infixOf pat ((pyLower (pyStrip line)).data) = false)
    (hnl : pat.all (fun c => !(c = '\n')) = true)
    (hne : pat ≠ [])
    (hhd : (pat.take 1).all (fun c => !(pyIsSpace c)) = true)
    (hrs : rstripL pat = pat) :
    infixOf pat (x.data.map Char.toLower) = false := by
  cases hocc : infixOf pat (x.data.map Char.toLower) with
  | false => rfl
  | true =>
    obtain ⟨line, hmem, hinf⟩ := infix_lower_strip_line hocc hnl hne hhd hrs
    have hf := hlines line hmem
    rw [hinf] at hf
    exact Bool.noConfusion hf

/-! ## Extracting the per-line hypotheses -/

theorem artifact_line {x : String} (hA : artifactFreeClaim x = true)
    {line : String} (hmem : line ∈ pySplitLines x) : lineArtifactFree line = true := by
  simp only [artifactFreeClaim, List.all_eq_true] at hA
  exact hA line hmem

theorem noBlank_line {x : String} (hB : noBlankLines x = true)
    {line : String} (hmem : line ∈ pySplitLines x) : ¬(pyStrip line = "") := by
  simp only [noBlankLines, List.all_eq_true] at hB
  have h := hB line hmem
  simpa using h

theorem skipFree_line {x : String} (hS : skipPatternFree x = true)
    {line : String} (hmem : line ∈ pySplitLines x) : skipPatternHit (pyStrip line) = false := by
  simp only [skipPatternFree, List.all_eq_true] at hS
  have h := hS line hmem
  simpa using h

theorem ne_empty_of_noBlank {x : String} (hB : noBlankLines x = true) : x ≠ "" := by
  intro h
  rw [h] at hB
  exact absurd hB (by decide)

theorem lineArtifactFree_parts {line : String} (h : lineArtifactFree line = true) :
    (forcedRemovalTriggers.any (fun p => strContains (pyLower (pyStrip line)) p) = false)
  ∧ (directiveStarts.any (fun p => startsWithStr (pyLower (pyStrip line)) p) = false)
  ∧ (isGlossaryEntryLine (pyStrip line) = false)
  ∧ (prefixPhraseStart (pyLower (pyStrip line)) = false)
  ∧ (strContains (pyLower (pyStrip line)) "<thinking>" = false)
  ∧ (strContains (pyLower (pyStrip line)) "</thinking>" = false)
  ∧ (strContains (pyLower (pyStrip line)) "<analysis>" = false)
  ∧ (strContains (pyLower (pyStrip line)) "</analysis>" = false)
  ∧ (strContains (pyLower (pyStrip line)) "<reasoning>" = false)
  ∧ (strContains (pyLower (pyStrip line)) "</reasoning>" = false)
  ∧ (strContains (pyLower (pyStrip line)) "<answer>" = false)
  ∧ (strContains (pyLower (pyStrip line)) "</answer>" = false)
  ∧ (strContains (pyLower (pyStrip line)) "assistant>" = false)
  ∧ (nonContentPatterns.any (fun p => strContains (pyLower (pyStrip line)) p) = false)
  ∧ (contentStartMarkers.any (fun m => startsWithStr (pyLower (pyStrip line)) (pyLower m)) = false)
  ∧ (ocArtifactKeywords.any (fun kw => strContains (pyLower (pyStrip line)) kw) = false) := by
  simp only [lineArtifactFree, Bool.and_eq_true, Bool.not_eq_true'] at h
  obtain ⟨⟨⟨⟨⟨⟨⟨⟨⟨⟨⟨⟨⟨⟨⟨h1, h2⟩, h3⟩, h4⟩, h5⟩, h6⟩, h7⟩, h8⟩, h9⟩, h10⟩, h11⟩, h12⟩,
    h13⟩, h14⟩, h15⟩, h16⟩ := h
  exact ⟨h1, h2, h3, h4, h5, h6, h7, h8, h9, h10, h11, h12, h13, h14, h15, h16⟩

theorem artifact_no_occ {x : String} (hA : artifactFreeClaim x = true) (pat : String)
    (hsel : ∀ line : String, lineArtifactFree line = true →
      strContains (pyLower (pyStrip line)) pat = false)
    (hnl : pat.data.all (fun c => !(c = '\n')) = true)
    (hne : pat.data ≠ [])
    (hhd : (pat.data.take 1).all (fun c => !(pyIsSpace c)) = true)
    (hrs : rstripL pat.data = pat.data) :
    infixOf pat.data (x.data.map Char.toLower) = false :=
  occ_lower_false (fun line hmem => hsel line (artifact_line hA hmem)) hnl hne hhd hrs

/-! ## Stage identities: forced removal and whitespace -/

theorem forcedRemovalLoop_eq_self :
    ∀ (ls : List String),
    (∀ l ∈ ls, ¬(pyStrip l = "") ∧ lineArtifactFree l = true) →
    ∀ n : Nat, forcedRemovalLoop ls false n = ls := by
  intro ls
  induction ls with
  | nil => intro _ n; rfl
  | cons l rest ih =>
    intro h n
    obtain ⟨hs, ha⟩ := h l (List.mem_cons_self _ _)
    obtain ⟨h1, h2, h3, _⟩ := lineArtifactFree_parts ha
    simp only [forcedRemovalLoop, if_neg hs, h1, h2, h3]
    simp only [Bool.false_eq_true, if_false]
    rw [ih (fun l hm => h l (List.mem_cons_of_mem _ hm)) n]

theorem collapseBlankRuns_eq_self :
    ∀ (ls : List String), (∀ l ∈ ls, ¬(pyStrip l = "")) →
    ∀ b : Bool, collapseBlankRuns ls b = ls := by
  intro ls
  induction ls with
  | nil => intro _ b; rfl
  | cons l rest ih =>
    intro h b
    have hs := h l (List.mem_cons_self _ _)
    simp only [collapseBlankRuns, hs, decide_False, Bool.false_and, Bool.false_eq_true, if_false]
    rw [ih (fun l hm => h l (List.mem_cons_of_mem _ hm))]

theorem line_props {x : String} (hA : artifactFreeClaim x = true) (hB : noBlankLines x = true) :
    ∀ l ∈ pySplitLines x, ¬(pyStrip l = "") ∧ lineArtifactFree l = true :=
  fun l hm => ⟨noBlank_line hB hm, artifact_line hA hm⟩

theorem cleanWhitespace_eq_self {x : String} (hB : noBlankLines x = true)
    (hT : pyStrip x = x) : cleanWhitespace x = x := by
  unfold cleanWhitespace
  rw [collapseBlankRuns_eq_self (pySplitLines x) (fun l hm => noBlank_line hB hm) false,
    pyJoin_pySplitLines, hT]

theorem applyForcedRemoval_eq_self {x : String} (hA : artifactFreeClaim x = true)
    (hB : noBlankLines x = true) (hT : pyStrip x = x) : applyForcedRemoval x = x := by
  unfold applyForcedRemoval
  rw [if_neg (ne_empty_of_noBlank hB)]
  rw [forcedRemovalLoop_eq_self (pySplitLines x) (line_props hA hB) 0, pyJoin_pySplitLines]
  exact cleanWhitespace_eq_self hB hT

theorem dropBlankLinesAndStrip_eq_self {x : String} (hB : noBlankLines x = true)
    (hT : pyStrip x = x) : dropBlankLinesAndStrip x = x := by
  unfold dropBlankLinesAndStrip
  rw [List.filter_eq_self.mpr ?hkeep, pyJoin_pySplitLines, hT]
  case hkeep =>
    intro l hm
    simpa using noBlank_line hB hm

/-! ## Tag-removal identities -/

theorem matchLitCI_none_of_nocc {tag cs : List Char}
    (h : infixOf (tag.map Char.toLower) (cs.map Char.toLower) = false) (k : Nat) :
    matchLitCI tag (cs.drop k) = none := by
  cases hm : matchLitCI tag (cs.drop k) with
  | none => rfl
  | some r =>
    exfalso
    have hp := matchLitCI_lower hm
    rw [List.map_drop] at hp
    have hi := infixOf_drop k (infixOf_of_isPrefL hp)
    rw [h] at hi
    exact Bool.noConfusion hi

theorem matchLit_none_of_nocc {tag cs : List Char}
    (h : infixOf (tag.map Char.toLower) (cs.map Char.toLower) = false) (k : Nat) :
    matchLit tag (cs.drop k) = none := by
  cases hm : matchLit tag (cs.drop k) with
  | none => rfl
  | some r =>
    exfalso
    have hp := isPrefL_map Char.toLower (matchLit_pref hm)
    rw [List.map_drop] at hp
    have hi := infixOf_drop k (infixOf_of_isPrefL hp)
    rw [h] at hi
    exact Bool.noConfusion hi

theorem removeTagSpansF_eq_self (openT closeT : List Char) :
    ∀ (cs : List Char) (fuel : Nat),
    infixOf (openT.map Char.toLower) (cs.map Char.toLower) = false →
    removeTagSpansF openT closeT fuel cs = cs := by
  intro cs
  induction cs with
  | nil => intro fuel _; cases fuel <;> rfl
  | cons c rest ih =>
    intro fuel h
    have h2 : infixOf (openT.map Char.toLower) (rest.map Char.toLower) = false := by
      cases hoc : infixOf (openT.map Char.toLower) (rest.map Char.toLower) with
      | false => rfl
      | true =>
        have hcontra := infixOf_cons (Char.toLower c) hoc
        rw [List.map_cons] at h
        rw [h] at hcontra
        exact Bool.noConfusion hcontra
    cases fuel with
    | zero => rfl
    | succ f =>
      have hm : matchLitCI openT (c :: rest) = none := by
        have := matchLitCI_none_of_nocc h 0
        simpa using this
      simp only [removeTagSpansF, hm]
      rw [ih f h2]

theorem tryAnchoredTag_none {tag : List Char} {ci : Bool} {cs : List Char}
    (h : infixOf (tag.map Char.toLower) (cs.map Char.toLower) = false) :
    tryAnchoredTag tag ci cs = none := by
  unfold tryAnchoredTag
  cases ci with
  | false => simp [matchLit_none_of_nocc h]
  | true => simp [matchLitCI_none_of_nocc h]

theorem subAnchoredTagF_eq_self {tag : List Char} {ci : Bool} :
    ∀ (cs : List Char) (fuel : Nat) (atStart : Bool),
    infixOf (tag.map Char.toLower) (cs.map Char.toLower) = false →
    subAnchoredTagF tag ci fuel atStart cs = cs := by
  intro cs
  induction cs with
  | nil => intro fuel atStart _; cases fuel <;> rfl
  | cons c rest ih =>
    intro fuel atStart h
    have h2 : infixOf (tag.map Char.toLower) (rest.map Char.toLower) = false := by
      cases hoc : infixOf (tag.map Char.toLower) (rest.map Char.toLower) with
      | false => rfl
      | true =>
        have hcontra := infixOf_cons (Char.toLower c) hoc
        rw [List.map_cons] at h
        rw [h] at hcontra
        exact Bool.noConfusion hcontra
    cases fuel with
    | zero => rfl
    | succ f =>
      cases atStart with
      | true =>
        simp only [subAnchoredTagF, tryAnchoredTag_none h, if_true]
        rw [ih f _ h2]
      | false =>
        simp only [subAnchoredTagF, Bool.false_eq_true, if_false]
        rw [ih f _ h2]

theorem tryClosingTag_none {tag cs : List Char}
    (h : infixOf (tag.map Char.toLower) (cs.map Char.toLower) = false) :
    tryClosingTag tag cs = none := by
  unfold tryClosingTag
  simp [matchLit_none_of_nocc h]

theorem subClosingTagF_eq_self {tag : List Char} :
    ∀ (cs : List Char) (fuel : Nat),
    infixOf (tag.map Char.toLower) (cs.map Char.toLower) = false →
    subClosingTagF tag fuel cs = cs := by
  intro cs
  induction cs with
  | nil => intro fuel _; cases fuel <;> rfl
  | cons c rest ih =>
    intro fuel h
    have h2 : infixOf (tag.map Char.toLower) (rest.map Char.toLower) = false := by
      cases hoc : infixOf (tag.map Char.toLower) (rest.map Char.toLower) with
      | false => rfl
      | true =>
        have hcontra := infixOf_cons (Char.toLower c) hoc
        rw [List.map_cons] at h
        rw [h] at hcontra
        exact Bool.noConfusion hcontra
    cases fuel with
    | zero => rfl
    | succ f =>
      simp only [subClosingTagF, tryClosingTag_none h]
      rw [ih f h2]

theorem stringMk_data (s : String) : String.mk s.data = s := rfl

theorem removeTagBlocks_eq_self {tag s : String}
    (h : infixOf (("<" ++ tag ++ ">").data.map Char.toLower) (s.data.map Char.toLower) = false) :
    removeTagBlocks tag s = s := by
  unfold removeTagBlocks removeTagSpans
  rw [removeTagSpansF_eq_self _ _ _ _ h, stringMk_data]

theorem subAnchoredTag_eq_self {tag text : String} (ci : Bool)
    (h : infixOf (tag.data.map Char.toLower) (text.data.map Char.toLower) = false) :
    subAnchoredTag tag ci text = text := by
  unfold subAnchoredTag
  rw [subAnchoredTagF_eq_self _ _ _ h, stringMk_data]

theorem subClosingTag_eq_self {tag text : String}
    (h : infixOf (tag.data.map Char.toLower) (text.data.map Char.toLower) = false) :
    subClosingTag tag text = text := by
  unfold subClosingTag
  rw [subClosingTagF_eq_self _ _ h, stringMk_data]

/-! ## Prefix-pattern identity -/

theorem pref_lower_head_line {x : String} {p : List Char}
    (h : isPrefL p (x.data.map Char.toLower) = true)
    (hnl : p.all (fun c => !(c = '\n')) = true)
    (hhd : (p.take 1).all (fun c => !(pyIsSpace c)) = true)
    (hrs : rstripL p = p) :
    ∃ line ∈ pySplitLines x, isPrefL p ((pyLower (pyStrip line)).data) = true := by
  have h1 := isPrefL_takeWhile (fun c => !(c = '\n')) hnl h
  have hfun : ((fun c => !(c = '\n')) ∘ Char.toLower) = (fun c => !(c = '\n')) := by
    funext c
    simp only [Function.comp]
    congr 1
    exact decide_eq_decide.mpr (toLower_eq_nl c)
  rw [List.takeWhile_map, hfun] at h1
  have h2 := isPrefL_stripEnds hhd hrs h1
  rw [stripEnds_map_toLower] at h2
  obtain ⟨gs, hgs⟩ := splitNl_head x.data
  refine ⟨String.mk (x.data.takeWhile (fun c => !(c = '\n'))), ?_, ?_⟩
  · show _ ∈ (splitNl x.data).map String.mk
    rw [hgs]
    exact List.mem_cons_self _ _
  · exact h2

theorem prefix_stem_contra {x : String} (hA : artifactFreeClaim x = true) {p : List Char}
    (h : isPrefL p (x.data.map Char.toLower) = true)
    (hnl : p.all (fun c => !(c = '\n')) = true)
    (hhd : (p.take 1).all (fun c => !(pyIsSpace c)) = true)
    (hrs : rstripL p = p)
    (hstem : ∀ line : String, isPrefL p ((pyLower (pyStrip line)).data) = true →
      prefixPhraseStart (pyLower (pyStrip line)) = true) :
    False := by
  obtain ⟨line, hmem, hline⟩ := pref_lower_head_line h hnl hhd hrs
  have h4 := (lineArtifactFree_parts (artifact_line hA hmem)).2.2.2.1
  rw [hstem line hline] at h4
  exact Bool.noConfusion h4

theorem matchPrefPat1_none {x : String} (hA : artifactFreeClaim x = true) :
    matchPrefPat1 x.data = none := by
  cases hm : matchLitCI "here is the ".data x.data with
  | none => simp [matchPrefPat1, hm]
  | some r =>
    exact absurd (isPrefL_trans (by decide) (matchLitCI_lower hm))
      (fun hp => prefix_stem_contra hA (p := "here is the".data) hp (by decide) (by decide) rfl
        (fun line hl => by
          simp only [prefixPhraseStart]
          rw [show startsWithStr (pyLower (pyStrip line)) "here is the" = true from hl]
          simp))

theorem matchPrefPat2_none {x : String} (hA : artifactFreeClaim x = true) :
    matchPrefPat2 x.data = none := by
  cases hm : matchLitCI "here is the translation".data x.data with
  | none => simp [matchPrefPat2, hm]
  | some r =>
    exact absurd (isPrefL_trans (by decide) (matchLitCI_lower hm))
      (fun hp => prefix_stem_contra hA (p := "here is the".data) hp (by decide) (by decide) rfl
        (fun line hl => by
          simp only [prefixPhraseStart]
          rw [show startsWithStr (pyLower (pyStrip line)) "here is the" = true from hl]
          simp))

theorem matchPrefPat3_none {x : String} (hA : artifactFreeClaim x = true) :
    matchPrefPat3 x.data = none := by
  cases hm : matchLitCI "translation".data x.data with
  | none => simp [matchPrefPat3, hm]
  | some r =>
    exact absurd (isPrefL_trans (by decide) (matchLitCI_lower hm))
      (fun hp => prefix_stem_contra hA (p := "translation".data) hp (by decide) (by decide) rfl
        (fun line hl => by
          simp only [prefixPhraseStart]
          rw [show startsWithStr (pyLower (pyStrip line)) "translation" = true from hl]
          simp))

theorem matchPrefPat4_none {x : String} (hA : artifactFreeClaim x = true) :
    matchPrefPat4 x.data = none := by
  cases hm : matchLitCI "translated content".data x.data with
  | none => simp [matchPrefPat4, hm]
  | some r =>
    exact absurd (isPrefL_trans (by decide) (matchLitCI_lower hm))
      (fun hp => prefix_stem_contra hA (p := "translated content".data) hp (by decide)
        (by decide) rfl
        (fun line hl => by
          simp only [prefixPhraseStart]
          rw [show startsWithStr (pyLower (pyStrip line)) "translated content" = true from hl]
          simp))

theorem matchPrefPat5_none {x : String} (hA : artifactFreeClaim x = true) :
    matchPrefPat5 x.data = none := by
  cases hm : matchLitCI "好的，这是".data x.data with
  | none => simp [matchPrefPat5, hm]
  | some r =>
    exact absurd (isPrefL_trans (by decide) (matchLitCI_lower hm))
      (fun hp => prefix_stem_contra hA (p := "好的，这是".data) hp (by decide) (by decide) rfl
        (fun line hl => by
          simp only [prefixPhraseStart]
          rw [show startsWithStr (pyLower (pyStrip line)) "好的，这是" = true from hl]
          simp))

theorem matchPrefPat6_none {x : String} (hA : artifactFreeClaim x = true) :
    matchPrefPat6 x.data = none := by
  cases hm : matchLitCI "这是您提供的".data x.data with
  | none => simp [matchPrefPat6, hm]
  | some r =>
    exact absurd (isPrefL_trans (by decide) (matchLitCI_lower hm))
      (fun hp => prefix_stem_contra hA (p := "这是您提供的".data) hp (by decide) (by decide) rfl
        (fun line hl => by
          simp only [prefixPhraseStart]
          rw [show startsWithStr (pyLower (pyStrip line)) "这是您提供的" = true from hl]
          simp))

theorem matchPrefPat7_none {x : String} (hA : artifactFreeClaim x = true) :
    matchPrefPat7 x.data = none := by
  cases hm : matchLitCI "以下是翻译后".data x.data with
  | none => simp [matchPrefPat7, hm]
  | some r =>
    exact absurd (isPrefL_trans (by decide) (matchLitCI_lower hm))
      (fun hp => prefix_stem_contra hA (p := "以下是翻译后".data) hp (by decide) (by decide) rfl
        (fun line hl => by
          simp only [prefixPhraseStart]
          rw [show startsWithStr (pyLower (pyStrip line)) "以下是翻译后" = true from hl]
          simp))

theorem removePrefixPatterns_eq_self {x : String} (hA : artifactFreeClaim x = true) :
    removePrefixPatterns x = x := by
  simp only [removePrefixPatterns, matchPrefPat1_none hA, matchPrefPat2_none hA,
    matchPrefPat3_none hA, matchPrefPat4_none hA, matchPrefPat5_none hA,
    matchPrefPat6_none hA, matchPrefPat7_none hA]

/-! ## Instruction-echo, marker, artifact and content-start identities -/

theorem pySplitLines_length_pos (x : String) : 0 < (pySplitLines x).length := by
  unfold pySplitLines
  cases hsp : splitNl x.data with
  | nil => exact absurd hsp (splitNl_ne_nil x.data)
  | cons g gs => simp

theorem getD_zero_mem (x : String) : (pySplitLines x).getD 0 "" ∈ pySplitLines x := by
  cases hsp : pySplitLines x with
  | nil =>
    have := pySplitLines_length_pos x
    rw [hsp] at this
    exact absurd this (by simp)
  | cons a rest => simp

theorem removeInstructionEcho_eq_self {x : String} (hA : artifactFreeClaim x = true)
    (hB : noBlankLines x = true) : removeInstructionEchoAtStart x = (x, false) := by
  have hscan : echoScanF (pySplitLines x) (min 50 (pySplitLines x).length) 0 0 0 = 0 := by
    cases hm : min 50 (pySplitLines x).length with
    | zero => rfl
    | succ n =>
      have hmem := getD_zero_mem x
      have hs := noBlank_line hB hmem
      have h14 := (lineArtifactFree_parts
        (artifact_line hA hmem)).2.2.2.2.2.2.2.2.2.2.2.2.2.1
      simp only [echoScanF, if_neg hs, h14, Bool.false_eq_true, if_false]
      split
      · rfl
      · rw [if_neg (by omega)]
  unfold removeInstructionEchoAtStart
  simp only [hscan]
  rw [if_neg (lt_irrefl 0)]

theorem marker_start_false {x : String} (hA : artifactFreeClaim x = true) (i : Nat) :
    ∀ m ∈ contentStartMarkers,
    startsWithStr (pyLower (pyStrip ((pySplitLines x).getD i ""))) (pyLower m) = false := by
  by_cases hi : i < (pySplitLines x).length
  · have hmem : (pySplitLines x).getD i "" ∈ pySplitLines x := by
      rw [List.getD_eq_getElem _ _ hi]
      exact List.getElem_mem _
    have h15 := (lineArtifactFree_parts
      (artifact_line hA hmem)).2.2.2.2.2.2.2.2.2.2.2.2.2.2.1
    intro m hm
    simp only [List.any_eq_false] at h15
    have := h15 m hm
    exact Bool.eq_false_iff.mpr this
  · intro m hm
    rw [List.getD_eq_default _ _ (Nat.le_of_not_lt hi)]
    simp only [contentStartMarkers, List.mem_cons, List.not_mem_nil, or_false] at hm
    rcases hm with rfl | rfl | rfl | rfl | rfl | rfl | rfl <;> decide

theorem markerInner_none {lines : List String} {i : Nat} :
    ∀ ms : List String,
    (∀ m ∈ ms, startsWithStr (pyLower (pyStrip (lines.getD i ""))) (pyLower m) = false) →
    markerInner lines i ms = none := by
  intro ms
  induction ms with
  | nil => intro _; rfl
  | cons m ms ih =>
    intro hh
    simp only [markerInner, hh m (List.mem_cons_self _ _), Bool.false_eq_true, if_false]
    exact ih (fun m hm => hh m (List.mem_cons_of_mem _ hm))

theorem markerOuter_none {lines : List String}
    (h : ∀ i : Nat, markerInner lines i contentStartMarkers = none) :
    ∀ (i : Nat) (rest : List String), markerOuter lines i rest = none := by
  intro i rest
  induction rest generalizing i with
  | nil => rfl
  | cons a rest ih =>
    simp only [markerOuter, h i]
    exact ih (i + 1)

theorem extractFromStartMarker_eq_self {x : String} (hA : artifactFreeClaim x = true) :
    extractFromStartMarker x = (x, none) := by
  have hout := markerOuter_none
    (fun i => markerInner_none contentStartMarkers (marker_start_false hA i)) 0 (pySplitLines x)
  simp only [extractFromStartMarker, hout]

theorem removePromptArtifactsOC_eq_self {x : String} (hA : artifactFreeClaim x = true)
    (hT : pyStrip x = x) : removePromptArtifactsOC x = x := by
  unfold removePromptArtifactsOC
  rw [List.filter_eq_self.mpr ?hk, pyJoin_pySplitLines, hT]
  case hk =>
    intro l hm
    have h16 := (lineArtifactFree_parts
      (artifact_line hA hm)).2.2.2.2.2.2.2.2.2.2.2.2.2.2.2
    simp only [ocArtifactLineKept]
    split
    · rfl
    · simp [h16]

theorem enforceContentStart_eq_self {x : String} (hB : noBlankLines x = true)
    (hS : skipPatternFree x = true) (hT : pyStrip x = x) :
    enforceContentStart x = (x, true) := by
  have hx := ne_empty_of_noBlank hB
  have hlen := pySplitLines_length_pos x
  have hmem := getD_zero_mem x
  have hs := noBlank_line hB hmem
  have hsk := skipFree_line hS hmem
  simp only [enforceContentStart]
  rw [if_neg hx]
  cases hm : min 50 (pySplitLines x).length with
  | zero => omega
  | succ n =>
    rw [List.range_succ_eq_map]
    rw [List.find?_cons_of_pos _ (by
      simp only [List.getD, List.get?_eq_getElem?] at hs hsk
      simp [hs, hsk])]
    simp [pyJoin_pySplitLines, hT]

/-! ## The sanitizer fixpoint -/

theorem removeThinkingTags_eq_self {x : String} (hA : artifactFreeClaim x = true)
    (hB : noBlankLines x = true) (hT : pyStrip x = x) : removeThinkingTags x = x := by
  have h5 : infixOf (("<" ++ "thinking" ++ ">").data.map Char.toLower)
      (x.data.map Char.toLower) = false :=
    artifact_no_occ hA "<thinking>"
      (fun line h => (lineArtifactFree_parts h).2.2.2.2.1)
      (by decide) (by decide) (by decide) rfl
  have h7 : infixOf (("<" ++ "analysis" ++ ">").data.map Char.toLower)
      (x.data.map Char.toLower) = false :=
    artifact_no_occ hA "<analysis>"
      (fun line h => (lineArtifactFree_parts h).2.2.2.2.2.2.1)
      (by decide) (by decide) (by decide) rfl
  have h9 : infixOf (("<" ++ "reasoning" ++ ">").data.map Char.toLower)
      (x.data.map Char.toLower) = false :=
    artifact_no_occ hA "<reasoning>"
      (fun line h => (lineArtifactFree_parts h).2.2.2.2.2.2.2.2.1)
      (by decide) (by decide) (by decide) rfl
  unfold removeThinkingTags
  rw [if_neg (ne_empty_of_noBlank hB)]
  rw [removeTagBlocks_eq_self h5, removeTagBlocks_eq_self h7, removeTagBlocks_eq_self h9]
  exact dropBlankLinesAndStrip_eq_self hB hT

theorem removeAnswerTags_eq_self {x : String} (hA : artifactFreeClaim x = true)
    (hB : noBlankLines x = true) (hT : pyStrip x = x) : removeAnswerTags x = x := by
  have h11 : infixOf (("<answer>" : String).data.map Char.toLower)
      (x.data.map Char.toLower) = false :=
    artifact_no_occ hA "<answer>"
      (fun line h => (lineArtifactFree_parts h).2.2.2.2.2.2.2.2.2.2.1)
      (by decide) (by decide) (by decide) rfl
  have h12 : infixOf (("</answer>" : String).data.map Char.toLower)
      (x.data.map Char.toLower) = false :=
    artifact_no_occ hA "</answer>"
      (fun line h => (lineArtifactFree_parts h).2.2.2.2.2.2.2.2.2.2.2.1)
      (by decide) (by decide) (by decide) rfl
  have h13 : infixOf (("assistant>" : String).data.map Char.toLower)
      (x.data.map Char.toLower) = false :=
    artifact_no_occ hA "assistant>"
      (fun line h => (lineArtifactFree_parts h).2.2.2.2.2.2.2.2.2.2.2.2.1)
      (by decide) (by decide) (by decide) rfl
  show dropBlankLinesAndStrip
    (subAnchoredTag "assistant>" true
      (subClosingTag "</answer>" (subAnchoredTag "<answer>" false x))) = x
  rw [subAnchoredTag_eq_self false h11, subClosingTag_eq_self h12,
    subAnchoredTag_eq_self true h13]
  exact dropBlankLinesAndStrip_eq_self hB hT

theorem sanitizer_fixpoint_core {x : String} (hA : artifactFreeClaim x = true)
    (hS : skipPatternFree x = true) (hB : noBlankLines x = true) (hT : pyStrip x = x) :
    (parseModelOutput x).1 = x := by
  have h0 : pmoStep0 x = x := applyForcedRemoval_eq_self hA hB hT
  have h1 : pmoStep1 x = x := by
    unfold pmoStep1
    rw [h0]
    exact removePrefixPatterns_eq_self hA
  have h2 : pmoStep2 x = x := by
    unfold pmoStep2
    rw [h1]
    exact removeThinkingTags_eq_self hA hB hT
  have h25 : pmoStep25 x = x := by
    unfold pmoStep25
    rw [h2]
    exact removeAnswerTags_eq_self hA hB hT
  have h3 : pmoStep3 x = (x, false) := by
    unfold pmoStep3
    rw [h25]
    exact removeInstructionEcho_eq_self hA hB
  have h4 : pmoStep4 x = (x, none) := by
    unfold pmoStep4
    rw [h3]
    exact extractFromStartMarker_eq_self hA
  have h5 : pmoStep5 x = x := by
    unfold pmoStep5
    rw [h4]
    exact removePromptArtifactsOC_eq_self hA hT
  have h6 : pmoStep6 x = (x, true) := by
    unfold pmoStep6
    rw [h5]
    exact enforceContentStart_eq_self hB hS hT
  have hx := ne_empty_of_noBlank hB
  have hlen : ¬(10 * x.length < 3 * x.length) := by omega
  unfold parseModelOutput
  rw [if_neg hx]
  simp [h0, h6, hlen]

/-- C9: corrected.  `parse_model_output` is not idempotent in general (see the
counterexample), but on text that is already free of every artifact category it
targets — no forced-removal triggers, directives or glossary entries, no known
prefixes, no reasoning/answer tags, no instruction-echo phrases, no
content-start markers, no prompt-artifact keywords, no line matching the
content-start `SKIP_PATTERNS` (`important`, `=`, …), no blank line, no
leading or trailing whitespace, and whose first line is not a bare
single-digit line (on those CPython raises `IndexError` in the echo scan
instead of returning, see `firstLineNotBareDigit`; the hypothesis bounds the
claim to the program's completed runs and is not needed by the total
embedding) — the sanitizer returns its input unchanged, and is therefore
idempotent there. -/
theorem sanitizer_fixpoint_on_clean_text (x : String)
    (hA : artifactFreeClaim x = true) (hS : skipPatternFree x = true)
    (hB : noBlankLines x = true) (hT : pyStrip x = x)
    (hD : firstLineNotBareDigit x = true) :
    (parseModelOutput x).1 = x ∧
    (parseModelOutput (parseModelOutput x).1).1 = (parseModelOutput x).1 := by
  have h := sanitizer_fixpoint_core hA hS hB hT
  refine ⟨h, ?_⟩
  rw [h]
  exact h

/-- Witness for C9: the clean two-line document `"# T\nHello world content"`
satisfies every hypothesis and is returned unchanged by the sanitizer. -/
theorem sanitizer_fixpoint_on_clean_text_witness :
    (artifactFreeClaim "# T\nHello world content" = true
      ∧ skipPatternFree "# T\nHello world content" = true
      ∧ noBlankLines "# T\nHello world content" = true
      ∧ pyStrip "# T\nHello world content" = "# T\nHello world content"
      ∧ firstLineNotBareDigit "# T\nHello world content" = true)
    ∧ (parseModelOutput "# T\nHello world content").1 = "# T\nHello world content" :=
  ⟨⟨by decide, by decide, by decide, by decide, by decide⟩,
    (sanitizer_fixpoint_on_clean_text "# T\nHello world content" (by decide) (by decide)
      (by decide) (by decide) (by decide)).1⟩

end GlossaryFlow
